import Mathlib

/-!
# The batch embedding pipeline of all-minilm-l6-v2-go

A shallow embedding of `all_minilm_l6_v2/model.go` (`NewModel`, `Model.Close`,
`Model.Compute`, `Model.ComputeBatch`) and of `runEmbedding` in `cmd/cli/main.go`.

The tokenizer (`sugarme/tokenizer`) and the inference engine (`onnxruntime_go`) are
external collaborators.  Their answers are taken from a record of functions
(`Collab`) that may depend on the whole history of earlier calls, and every call made
to them is appended to a trace kept in the `World`, so that statements such as
"the engine is run exactly once" or "the tokenizer is not reached" are statements
about that trace.  A Go panic raised by the code itself (index or slice out of range)
is an explicit outcome; a collaborator is taken to return from every call.

Conventions.
* A `float32` is only ever copied by this code; it is represented by its bit pattern.
* Go `int` lengths and indices are natural numbers: every product formed by the code
  (`batchSize*seqLength`, `batchSize*384`) is bounded by the number of elements the
  process already holds in memory, so 64-bit wrap-around is out of reach.
* A Go slice result that may be `nil` is an `Option (List _)`, `none` being `nil`.
-/

namespace AllMiniLM

/-! ## Values -/

/-- A `float32`, as its bit pattern; the pipeline never computes on it. -/
abbrev F32 := Nat

/-- A Go `error` value: one produced by a collaborator (`ext`), one built by
`fmt.Errorf` without `%w` (`errorf`), or one built by `fmt.Errorf` with a `%w`
verb (`wrap`), which keeps the wrapped error. -/
inductive GoError where
  | ext (msg : String)
  | errorf (msg : String)
  | wrap (msg : String) (inner : GoError)
  deriving DecidableEq, Repr

/-- The method `Error()` of a Go error. -/
def GoError.Error : GoError → String
  | .ext msg => msg
  | .errorf msg => msg
  | .wrap msg _ => msg

/-- The function `errors.Unwrap`. -/
def GoError.Unwrap : GoError → Option GoError
  | .ext _ => none
  | .errorf _ => none
  | .wrap _ inner => some inner

/-- The call `fmt.Errorf(pfx + "%w", err)`. -/
def wrapErrorf (pfx : String) (err : GoError) : GoError :=
  .wrap (pfx ++ err.Error) err

/-- The result of a collaborator call that returns `(value, error)`. -/
inductive Res (α : Type) where
  | ok (val : α)
  | fail (err : GoError)
  deriving DecidableEq, Repr

/-- The fields of `tokenizer.Encoding` that the pipeline reads. -/
structure Encoding where
  Ids : List Int
  TypeIds : List Int
  AttentionMask : List Int
  deriving DecidableEq, Repr

/-- A `tokenizer.EncodeInput` built by
`tokenizer.NewSingleEncodeInput(tokenizer.NewRawInputSequence(s))`. -/
structure EncodeInput where
  raw : String
  deriving DecidableEq, Repr

/-- An `ort.Shape`, a slice of `int64` dimensions. -/
abbrev Shape := List Int

/-- The call `ort.NewShape(dims...)`. -/
def NewShape (dims : List Int) : Shape := dims

/-- An `*ort.Tensor[int64]`: its engine handle, declared shape and backing data. -/
structure Int64Tensor where
  handle : Nat
  shape : Shape
  data : List Int
  deriving DecidableEq, Repr

/-- An `*ort.Tensor[float32]` created empty: its engine handle and declared shape.
Its contents after a run are what the engine reports (`Collab.Run`). -/
structure Float32Tensor where
  handle : Nat
  shape : Shape
  deriving DecidableEq, Repr

/-! ## Collaborator calls and the world -/

/-- One call made to a collaborator, with its arguments and its answer.  The last
two entries record the command handing sentences to the pipeline. -/
inductive Event where
  | encodeBatch (inputs : List EncodeInput) (addSpecialTokens : Bool)
      (result : Res (List Encoding))
  | newTensor (shape : Shape) (data : List Int) (result : Res Nat)
  | newEmptyTensor (shape : Shape) (result : Res Nat)
  | run (session : Option Nat) (inputs : List Int64Tensor) (outputs : List Float32Tensor)
      (result : Res (List F32))
  | tensorDestroy (handle : Nat)
  | sessionDestroy (session : Nat)
  | destroyEnvironment (result : Option GoError)
  | fromReader (result : Option GoError)
  | setSharedLibraryPath (path : String)
  | lookupEnv (name : String) (result : Option String)
  | initializeEnvironment (result : Option GoError)
  | newSession (inputNames outputNames : List String) (result : Res Nat)
  | compute (sentence : String)
  | computeBatch (sentences : List String)
  deriving DecidableEq, Repr

/-- The state outside the Go values: the calls made so far, oldest first, and the
next fresh tensor handle. -/
structure World where
  trace : List Event
  nextHandle : Nat
  deriving DecidableEq, Repr

/-- Append one call to the trace. -/
def World.log (w : World) (e : Event) : World :=
  { w with trace := w.trace ++ [e] }

/-- Append a successful tensor creation to the trace and use up its handle. -/
def World.alloc (w : World) (e : Event) : World :=
  { trace := w.trace ++ [e], nextHandle := w.nextHandle + 1 }

/-- The calls a step added: the trace of `w2` after the first `|trace of w1|` entries. -/
def newEvents (w1 w2 : World) : List Event :=
  w2.trace.drop w1.trace.length

/-- The answers of the external collaborators.  Each may depend on the history.
`NewTensor`, `NewEmptyTensor`, `FromReader`, `InitializeEnvironment` and `NewSession`
answer `none` on success; `Run` answers with the contents of the output tensor after
the run (what `GetData` then returns); `LookupEnv` answers `none` when the variable
is not set. -/
structure Collab where
  EncodeBatch : World → List EncodeInput → Bool → Res (List Encoding)
  NewTensor : World → Shape → List Int → Option GoError
  NewEmptyTensor : World → Shape → Option GoError
  Run : World → Option Nat → List Int64Tensor → List Float32Tensor → Res (List F32)
  DestroyEnvironment : World → Option GoError
  FromReader : World → Option GoError
  LookupEnv : World → String → Option String
  InitializeEnvironment : World → Option GoError
  NewSession : World → List String → List String → Option GoError

/-- How a Go call ends: it returns a value, or it panics. -/
inductive Outcome (α : Type) where
  | returned (val : α) (w : World)
  | panicked (w : World)
  deriving DecidableEq, Repr

/-- The world in which a call ended. -/
def Outcome.world {α : Type} : Outcome α → World
  | .returned _ w => w
  | .panicked w => w

/-- The statement `defer t.Destroy()`: the tensor is destroyed when the rest of the
function has ended, whether by return or by panic. -/
def Outcome.deferDestroy {α : Type} (handle : Nat) : Outcome α → Outcome α
  | .returned v w => .returned v (w.log (.tensorDestroy handle))
  | .panicked w => .panicked (w.log (.tensorDestroy handle))

/-! ## The model -/

/-- The struct `Model`.  The tokenizer field `tk` is the collaborator behind
`Collab.EncodeBatch`; `session` is the pointer field, `none` being `nil`. -/
structure Model where
  session : Option Nat
  runtimePath : String
  deriving DecidableEq, Repr

/-- The two results `([][]float32, error)` of `ComputeBatch`. -/
structure BatchReturn where
  results : Option (List (List F32))
  err : Option GoError
  deriving DecidableEq, Repr

/-- The two results `([]float32, error)` of `Compute`. -/
structure ComputeReturn where
  result : Option (List F32)
  err : Option GoError
  deriving DecidableEq, Repr

/-- The constant `hiddenSize := 384` of `ComputeBatch`. -/
def hiddenSize : Nat := 384

/-- The loop building `inputBatch`: one `append` per sentence. -/
def encodeInputs (sentences : List String) : List EncodeInput :=
  sentences.foldl (fun inputBatch s => inputBatch ++ [EncodeInput.mk s]) []

/-- The assignment `buf[idx] = v`; `none` is the index-out-of-range panic. -/
def writeAt (buf : List Int) (idx : Nat) (v : Int) : Option (List Int) :=
  if idx < buf.length then some (buf.set idx v) else none

/-- The loop `for i, v := range vals { buf[base+i] = int64(v) }`, started at index `i`. -/
def writeRow (base : Nat) : Nat → List Int → List Int → Option (List Int)
  | _, [], buf => some buf
  | i, v :: vs, buf =>
    match writeAt buf (base + i) v with
    | none => none
    | some buf1 => writeRow base (i + 1) vs buf1

/-- The three input buffers under construction. -/
structure Buffers where
  inputIdsData : List Int
  attentionMaskData : List Int
  tokenTypeIdsData : List Int
  deriving DecidableEq, Repr

/-- The loop `for b := range batchSize { ... }` over the remaining row numbers `bs`;
`none` is a panic (`encodings[b]` or a buffer index out of range). -/
def fillRows (encodings : List Encoding) (seqLength : Nat) : List Nat → Buffers → Option Buffers
  | [], bufs => some bufs
  | b :: bs, bufs =>
    match encodings[b]? with
    | none => none
    | some enc =>
      match writeRow (b * seqLength) 0 enc.Ids bufs.inputIdsData with
      | none => none
      | some ids =>
        match writeRow (b * seqLength) 0 enc.AttentionMask bufs.attentionMaskData with
        | none => none
        | some mask =>
          match writeRow (b * seqLength) 0 enc.TypeIds bufs.tokenTypeIdsData with
          | none => none
          | some types => fillRows encodings seqLength bs ⟨ids, mask, types⟩

/-- What lines 109-130 of `ComputeBatch` compute: the declared input shape and the
three filled buffers. -/
structure BatchInputs where
  inputShape : Shape
  bufs : Buffers
  deriving DecidableEq, Repr

/-- Lines 109-130 of `ComputeBatch`: `seqLength := len(encodings[0].Ids)`, the shape
`(batchSize, seqLength)`, three zeroed buffers of `batchSize*seqLength` elements, and
the fill loop.  `none` is a panic. -/
def buildInputs (batchSize : Nat) (encodings : List Encoding) : Option BatchInputs :=
  match encodings[0]? with
  | none => none
  | some enc0 =>
    let seqLength : Nat := enc0.Ids.length
    let inputShape := NewShape [(batchSize : Int), (seqLength : Int)]
    let zeros := List.replicate (batchSize * seqLength) (0 : Int)
    match fillRows encodings seqLength (List.range batchSize) ⟨zeros, zeros, zeros⟩ with
    | none => none
    | some bufs => some ⟨inputShape, bufs⟩

/-- The slice expression `xs[lo:hi]`; `none` is the slice-bounds panic.  The bound
used is `len(xs)`; the code only slices after checking `len(flatOutput)`. -/
def sliceRange {α : Type} (xs : List α) (lo hi : Nat) : Option (List α) :=
  if lo ≤ hi ∧ hi ≤ xs.length then some ((xs.drop lo).take (hi - lo)) else none

/-- The builtin `copy(dst, src)`: the first `min(len(dst), len(src))` elements of
`dst` are replaced by those of `src`. -/
def copySlice {α : Type} (dst src : List α) : List α :=
  src.take (min dst.length src.length) ++ dst.drop (min dst.length src.length)

/-- The loop `for i := range batchSize { ... }` of lines 176-181 over the remaining
row numbers; `none` is a panic. -/
def extractRows (flatOutput : List F32) : List Nat → List (List F32) → Option (List (List F32))
  | [], results => some results
  | i :: rest, results =>
    let start := i * hiddenSize
    let stop := start + hiddenSize
    match sliceRange flatOutput start stop with
    | none => none
    | some src =>
      if i < results.length then
        extractRows flatOutput rest (results.set i (copySlice (List.replicate hiddenSize 0) src))
      else none

/-- The text of the size-mismatch error of line 172. -/
def sizeMismatchMessage (got expected : Nat) : String :=
  "unexpected output tensor size: got " ++ toString got ++ " elements, expected "
    ++ toString expected ++ " elements"

/-- Lines 165-183 of `ComputeBatch`: the size check on the output buffer and the
extraction of one row per sentence.  `none` is a panic. -/
def extractResults (batchSize : Nat) (flatOutput : List F32) : Option BatchReturn :=
  let expectedTotalSize := batchSize * hiddenSize
  if flatOutput.length ≠ expectedTotalSize then
    some ⟨none, some (.errorf (sizeMismatchMessage flatOutput.length expectedTotalSize))⟩
  else
    match extractRows flatOutput (List.range batchSize) (List.replicate batchSize []) with
    | none => none
    | some results => some ⟨some results, none⟩

/-- Lines 157-183 of `ComputeBatch`, with the four tensors in hand: run the session,
then check and extract. -/
def runAndExtract (c : Collab) (m : Model) (w : World) (batchSize : Nat)
    (ids mask types : Int64Tensor) (out : Float32Tensor) : Outcome BatchReturn :=
  let inputTensors := [ids, mask, types]
  let outputTensors := [out]
  let r := c.Run w m.session inputTensors outputTensors
  let w1 := w.log (.run m.session inputTensors outputTensors r)
  match r with
  | .fail err => .returned ⟨none, some (wrapErrorf "failed to run session: " err)⟩ w1
  | .ok flatOutput =>
    match extractResults batchSize flatOutput with
    | none => .panicked w1
    | some ret => .returned ret w1

/-- Lines 150-183: create the output tensor, defer its destruction, go on. -/
def withOutputTensor (c : Collab) (m : Model) (w : World) (batchSize : Nat)
    (ids mask types : Int64Tensor) : Outcome BatchReturn :=
  let sentenceOutputShape := NewShape [(batchSize : Int), (hiddenSize : Int)]
  match c.NewEmptyTensor w sentenceOutputShape with
  | some err =>
    .returned ⟨none, some (wrapErrorf "failed to create empty tensor: " err)⟩
      (w.log (.newEmptyTensor sentenceOutputShape (.fail err)))
  | none =>
    let out : Float32Tensor := ⟨w.nextHandle, sentenceOutputShape⟩
    Outcome.deferDestroy out.handle
      (runAndExtract c m (w.alloc (.newEmptyTensor sentenceOutputShape (.ok out.handle)))
        batchSize ids mask types out)

/-- Lines 144-183: create the `token_type_ids` tensor, defer its destruction, go on. -/
def withTypeTensor (c : Collab) (m : Model) (w : World) (batchSize : Nat)
    (inp : BatchInputs) (ids mask : Int64Tensor) : Outcome BatchReturn :=
  match c.NewTensor w inp.inputShape inp.bufs.tokenTypeIdsData with
  | some err =>
    .returned ⟨none, some (wrapErrorf "failed creating token_type_ids tensor: " err)⟩
      (w.log (.newTensor inp.inputShape inp.bufs.tokenTypeIdsData (.fail err)))
  | none =>
    let t : Int64Tensor := ⟨w.nextHandle, inp.inputShape, inp.bufs.tokenTypeIdsData⟩
    Outcome.deferDestroy t.handle
      (withOutputTensor c m
        (w.alloc (.newTensor inp.inputShape inp.bufs.tokenTypeIdsData (.ok t.handle)))
        batchSize ids mask t)

/-- Lines 138-183: create the `attention_mask` tensor, defer its destruction, go on. -/
def withMaskTensor (c : Collab) (m : Model) (w : World) (batchSize : Nat)
    (inp : BatchInputs) (ids : Int64Tensor) : Outcome BatchReturn :=
  match c.NewTensor w inp.inputShape inp.bufs.attentionMaskData with
  | some err =>
    .returned ⟨none, some (wrapErrorf "failed creating attention_mask tensor: " err)⟩
      (w.log (.newTensor inp.inputShape inp.bufs.attentionMaskData (.fail err)))
  | none =>
    let t : Int64Tensor := ⟨w.nextHandle, inp.inputShape, inp.bufs.attentionMaskData⟩
    Outcome.deferDestroy t.handle
      (withTypeTensor c m
        (w.alloc (.newTensor inp.inputShape inp.bufs.attentionMaskData (.ok t.handle)))
        batchSize inp ids t)

/-- Lines 132-183: create the `input_ids` tensor, defer its destruction, go on. -/
def withIdsTensor (c : Collab) (m : Model) (w : World) (batchSize : Nat)
    (inp : BatchInputs) : Outcome BatchReturn :=
  match c.NewTensor w inp.inputShape inp.bufs.inputIdsData with
  | some err =>
    .returned ⟨none, some (wrapErrorf "failed creating input_ids tensor: " err)⟩
      (w.log (.newTensor inp.inputShape inp.bufs.inputIdsData (.fail err)))
  | none =>
    let t : Int64Tensor := ⟨w.nextHandle, inp.inputShape, inp.bufs.inputIdsData⟩
    Outcome.deferDestroy t.handle
      (withMaskTensor c m
        (w.alloc (.newTensor inp.inputShape inp.bufs.inputIdsData (.ok t.handle)))
        batchSize inp t)

/-- The method `(*Model).ComputeBatch`. -/
def ComputeBatch (c : Collab) (m : Model) (w : World) (sentences : List String) :
    Outcome BatchReturn :=
  if sentences.length = 0 then .returned ⟨none, none⟩ w
  else
    let inputBatch := encodeInputs sentences
    let r := c.EncodeBatch w inputBatch true
    let w1 := w.log (.encodeBatch inputBatch true r)
    match r with
    | .fail err => .returned ⟨none, some (wrapErrorf "failed to tokenize sentence: " err)⟩ w1
    | .ok encodings =>
      match buildInputs sentences.length encodings with
      | none => .panicked w1
      | some inp => withIdsTensor c m w1 sentences.length inp

/-- The method `(*Model).Compute`. -/
def Compute (c : Collab) (m : Model) (w : World) (sentence : String) :
    Outcome ComputeReturn :=
  match ComputeBatch c m w [sentence] with
  | .panicked w1 => .panicked w1
  | .returned ⟨results, err⟩ w1 =>
    match err with
    | some e => .returned ⟨none, some e⟩ w1
    | none =>
      match results with
      | none => .returned ⟨none, none⟩ w1
      | some [] => .returned ⟨none, none⟩ w1
      | some (first :: _) => .returned ⟨some first, none⟩ w1

/-- The result of `(*Model).Close`: the model afterwards, the returned error and
the world. -/
structure CloseReturn where
  model : Model
  err : Option GoError
  world : World
  deriving DecidableEq, Repr

/-- The method `(*Model).Close`: destroy the session when the pointer is not `nil`,
then destroy the environment and return its error.  No field of the model is
assigned. -/
def Close (c : Collab) (m : Model) (w : World) : CloseReturn :=
  let w1 := match m.session with
    | some s => w.log (.sessionDestroy s)
    | none => w
  let err := c.DestroyEnvironment w1
  ⟨m, err, w1.log (.destroyEnvironment err)⟩

/-- A `ModelOption`, a function applied to the model under construction. -/
abbrev ModelOption := Model → Model

/-- The option `WithRuntimePath(path)`. -/
def WithRuntimePath (path : String) : ModelOption :=
  fun m => { m with runtimePath := path }

/-- The results `(*Model, error)` of `NewModel`, and the world afterwards. -/
structure NewModelReturn where
  model : Option Model
  err : Option GoError
  world : World
  deriving DecidableEq, Repr

/-- Lines 56-73 of `NewModel`: initialise the environment, create the session, and
return a fresh `Model` holding it. -/
def NewModelSession (c : Collab) (w : World) : NewModelReturn :=
  let r := c.InitializeEnvironment w
  let w1 := w.log (.initializeEnvironment r)
  match r with
  | some err => ⟨none, some (wrapErrorf "failed to initialize onnx runtime: " err), w1⟩
  | none =>
    let inputNames := ["input_ids", "attention_mask", "token_type_ids"]
    let outputNames := ["sentence_embedding"]
    match c.NewSession w1 inputNames outputNames with
    | some err =>
      ⟨none, some (wrapErrorf "failed to create session: " err),
        w1.log (.newSession inputNames outputNames (.fail err))⟩
    | none =>
      ⟨some ⟨some w1.nextHandle, ""⟩, none,
        w1.alloc (.newSession inputNames outputNames (.ok w1.nextHandle))⟩

/-- The function `NewModel`. -/
def NewModel (c : Collab) (w : World) (opts : List ModelOption) : NewModelReturn :=
  let model : Model := opts.foldl (fun m opt => opt m) ⟨none, ""⟩
  let r := c.FromReader w
  let w1 := w.log (.fromReader r)
  match r with
  | some err => ⟨none, some (wrapErrorf "failed to load tokenizer: " err), w1⟩
  | none =>
    if model.runtimePath ≠ "" then
      NewModelSession c (w1.log (.setSharedLibraryPath model.runtimePath))
    else
      let r2 := c.LookupEnv w1 "ONNXRUNTIME_LIB_PATH"
      let w2 := w1.log (.lookupEnv "ONNXRUNTIME_LIB_PATH" r2)
      match r2 with
      | some path => NewModelSession c (w2.log (.setSharedLibraryPath path))
      | none => NewModelSession c w2

/-! ## The command -/

/-- The predicate `unicode.IsSpace`, which `strings.TrimSpace` uses. -/
def isSpace (ch : Char) : Bool :=
  ch = '\t' || ch = '\n' || ch.val = 0x0B || ch.val = 0x0C || ch = '\r' || ch = ' '
    || ch.val = 0x85 || ch.val = 0xA0 || ch.val = 0x1680
    || (0x2000 ≤ ch.val && ch.val ≤ 0x200A)
    || ch.val = 0x2028 || ch.val = 0x2029 || ch.val = 0x202F || ch.val = 0x205F
    || ch.val = 0x3000

/-- The function `strings.TrimSpace`: leading and trailing white space removed. -/
def TrimSpace (line : List Char) : List Char :=
  (((line.dropWhile isSpace).reverse).dropWhile isSpace).reverse

/-- Standard input: its text as decoded characters, and how the stream ends after
it, with `io.EOF` (`none`) or with a read error. -/
structure Stdin where
  text : List Char
  failure : Option GoError

/-- The loop of lines 56-73 of `runEmbedding`.  `line` holds what the pending call of
`reader.ReadString('\n')` has gathered so far.  At a newline the call returns the
line with its delimiter and no error; when the text is used up it returns what it
gathered together with `io.EOF` or the read error.  The result is the list
`sentences`, or the read error that makes the command exit. -/
def readLoop (failure : Option GoError) :
    List Char → List Char → List String → Res (List String)
  | [], line, sentences =>
    match failure with
    | none =>
      if line ≠ [] then .ok (sentences ++ [String.mk (TrimSpace line)]) else .ok sentences
    | some err => .fail err
  | ch :: rest, line, sentences =>
    if ch = '\n' then
      let trimmed := TrimSpace (line ++ [ch])
      if trimmed ≠ [] then readLoop failure rest [] (sentences ++ [String.mk trimmed])
      else readLoop failure rest [] sentences
    else readLoop failure rest (line ++ [ch]) sentences

/-- Lines 53-73 of `runEmbedding`: the sentences read from standard input. -/
def readSentences (stdin : Stdin) : Res (List String) :=
  readLoop stdin.failure stdin.text [] []

/-- How the process ends: `os.Exit(code)`, a normal return of `main` (exit code 0),
or a crash by panic. -/
inductive Exit where
  | exitCode (code : Nat)
  | crashed
  deriving DecidableEq, Repr

/-- How a run of the command ends, and the world afterwards. -/
structure CliReturn where
  exit : Exit
  world : World
  deriving DecidableEq, Repr

/-- The loop of lines 93-100: `Compute` on each sentence in turn; a failure exits
with code 1, a panic crashes.  `none` means the loop ran to its end.  Printing the
embedding is not modelled. -/
def computeEach (c : Collab) (m : Model) : World → List String → Option Exit × World
  | w, [] => (none, w)
  | w, sentence :: rest =>
    match Compute c m (w.log (.compute sentence)) sentence with
    | .panicked w1 => (some .crashed, w1)
    | .returned ⟨_, some _⟩ w1 => (some (.exitCode 1), w1)
    | .returned ⟨_, none⟩ w1 => computeEach c m w1 rest

/-- Lines 52-101 of `runEmbedding`, with the model in hand.  `os.Exit` ends the
process without running the deferred `model.Close()`; a normal return and a panic
run it.  Printing the embeddings (`outputEmbedding`) is not modelled. -/
def runWithModel (c : Collab) (m : Model) (w : World) (batchMode : Bool) (stdin : Stdin) :
    CliReturn :=
  match readSentences stdin with
  | .fail _ => ⟨.exitCode 1, w⟩
  | .ok sentences =>
    if sentences.length = 0 then ⟨.exitCode 1, w⟩
    else if batchMode ∧ sentences.length > 1 then
      match ComputeBatch c m (w.log (.computeBatch sentences)) sentences with
      | .panicked w1 => ⟨.crashed, (Close c m w1).world⟩
      | .returned ⟨_, some _⟩ w1 => ⟨.exitCode 1, w1⟩
      | .returned ⟨_, none⟩ w1 => ⟨.exitCode 0, (Close c m w1).world⟩
    else
      match computeEach c m w sentences with
      | (some .crashed, w1) => ⟨.crashed, (Close c m w1).world⟩
      | (some (.exitCode code), w1) => ⟨.exitCode code, w1⟩
      | (none, w1) => ⟨.exitCode 0, (Close c m w1).world⟩

/-- The function `runEmbedding`, the body of the command: `runtimePath` and
`batchMode` are the flag values.  A failed `NewModel` exits with code 1.  (The case
of no model and no error, in which the deferred `Close` would dereference `nil`, is
not one `NewModel` produces.) -/
def runEmbedding (c : Collab) (w : World) (runtimePath : String) (batchMode : Bool)
    (stdin : Stdin) : CliReturn :=
  let opts : List ModelOption := if runtimePath ≠ "" then [WithRuntimePath runtimePath] else []
  match NewModel c w opts with
  | ⟨_, some _, w1⟩ => ⟨.exitCode 1, w1⟩
  | ⟨none, none, w1⟩ => ⟨.crashed, w1⟩
  | ⟨some m, none, w1⟩ => runWithModel c m w1 batchMode stdin

/-- The sentences the command handed to `Compute` or `ComputeBatch`, read off a
trace. -/
def sentencesPassed : List Event → List String
  | [] => []
  | .compute s :: rest => s :: sentencesPassed rest
  | .computeBatch ss :: rest => ss ++ sentencesPassed rest
  | _ :: rest => sentencesPassed rest

/-! ## Reading traces and buffers -/

/-- The answers of the engine runs recorded in a list of calls, oldest first. -/
def runResults : List Event → List (Res (List F32))
  | [] => []
  | .run _ _ _ r :: rest => r :: runResults rest
  | _ :: rest => runResults rest

/-- Row `n` of a flat row-major buffer whose rows have `width` cells. -/
def rowOf {α : Type} (width n : Nat) (flat : List α) : List α :=
  (flat.drop (n * width)).take width

/-- What a buffer holds after the rows `bs` were written from the field `field` of
the encodings: the length is kept, the cells of the rows in `bs` hold the field, the
other cells are unchanged. -/
def RowsWritten (encodings : List Encoding) (L : Nat) (field : Encoding → List Int)
    (bs : List Nat) (old new : List Int) : Prop :=
  new.length = old.length ∧
    ∀ n l, l < L → new[n * L + l]? =
      if n ∈ bs then (encodings[n]?).bind (fun enc => (field enc)[l]?) else old[n * L + l]?

/-- What `ComputeBatch` returns once the engine has answered `r`: the wrapped error of
a failed run, the size-mismatch error, or the rows of the output buffer in order. -/
def runReturn (batchSize : Nat) (r : Res (List F32)) : BatchReturn :=
  match r with
  | .fail err => ⟨none, some (wrapErrorf "failed to run session: " err)⟩
  | .ok flatOutput =>
    if flatOutput.length = batchSize * hiddenSize then
      ⟨some ((List.range batchSize).map (fun n => rowOf hiddenSize n flatOutput)), none⟩
    else ⟨none, some (.errorf
      (sizeMismatchMessage flatOutput.length (batchSize * hiddenSize)))⟩

/-- The world `w` after the calls `evs` were added and `k` handles were used. -/
def World.after (w : World) (evs : List Event) (k : Nat) : World :=
  ⟨w.trace ++ evs, w.nextHandle + k⟩

/-- The paths through `ComputeBatch` on a non-empty batch, one constructor per exit,
each with the answers of the collaborators that lead to it, the returned values and
the calls added to the trace. -/
inductive BatchPath (c : Collab) (m : Model) (w : World) (sentences : List String) :
    Outcome BatchReturn → Prop where
  | tokenizeFailed (err : GoError)
      (htok : c.EncodeBatch w (encodeInputs sentences) true = .fail err) :
      BatchPath c m w sentences
        (.returned ⟨none, some (wrapErrorf "failed to tokenize sentence: " err)⟩
          (w.after [.encodeBatch (encodeInputs sentences) true (.fail err)] 0))
  | buildPanicked (encodings : List Encoding)
      (htok : c.EncodeBatch w (encodeInputs sentences) true = .ok encodings)
      (hbuild : buildInputs sentences.length encodings = none) :
      BatchPath c m w sentences
        (.panicked (w.after [.encodeBatch (encodeInputs sentences) true (.ok encodings)] 0))
  | idsFailed (encodings : List Encoding) (inp : BatchInputs) (err : GoError)
      (htok : c.EncodeBatch w (encodeInputs sentences) true = .ok encodings)
      (hbuild : buildInputs sentences.length encodings = some inp)
      (hids : c.NewTensor
        (w.after [.encodeBatch (encodeInputs sentences) true (.ok encodings)] 0)
        inp.inputShape inp.bufs.inputIdsData = some err) :
      BatchPath c m w sentences
        (.returned ⟨none, some (wrapErrorf "failed creating input_ids tensor: " err)⟩
          (w.after [.encodeBatch (encodeInputs sentences) true (.ok encodings),
            .newTensor inp.inputShape inp.bufs.inputIdsData (.fail err)] 0))
  | maskFailed (encodings : List Encoding) (inp : BatchInputs) (err : GoError)
      (htok : c.EncodeBatch w (encodeInputs sentences) true = .ok encodings)
      (hbuild : buildInputs sentences.length encodings = some inp)
      (hmask : c.NewTensor
        (w.after [.encodeBatch (encodeInputs sentences) true (.ok encodings),
          .newTensor inp.inputShape inp.bufs.inputIdsData (.ok w.nextHandle)] 1)
        inp.inputShape inp.bufs.attentionMaskData = some err) :
      BatchPath c m w sentences
        (.returned ⟨none, some (wrapErrorf "failed creating attention_mask tensor: " err)⟩
          (w.after [.encodeBatch (encodeInputs sentences) true (.ok encodings),
            .newTensor inp.inputShape inp.bufs.inputIdsData (.ok w.nextHandle),
            .newTensor inp.inputShape inp.bufs.attentionMaskData (.fail err),
            .tensorDestroy w.nextHandle] 1))
  | typesFailed (encodings : List Encoding) (inp : BatchInputs) (err : GoError)
      (htok : c.EncodeBatch w (encodeInputs sentences) true = .ok encodings)
      (hbuild : buildInputs sentences.length encodings = some inp)
      (htypes : c.NewTensor
        (w.after [.encodeBatch (encodeInputs sentences) true (.ok encodings),
          .newTensor inp.inputShape inp.bufs.inputIdsData (.ok w.nextHandle),
          .newTensor inp.inputShape inp.bufs.attentionMaskData (.ok (w.nextHandle + 1))] 2)
        inp.inputShape inp.bufs.tokenTypeIdsData = some err) :
      BatchPath c m w sentences
        (.returned ⟨none, some (wrapErrorf "failed creating token_type_ids tensor: " err)⟩
          (w.after [.encodeBatch (encodeInputs sentences) true (.ok encodings),
            .newTensor inp.inputShape inp.bufs.inputIdsData (.ok w.nextHandle),
            .newTensor inp.inputShape inp.bufs.attentionMaskData (.ok (w.nextHandle + 1)),
            .newTensor inp.inputShape inp.bufs.tokenTypeIdsData (.fail err),
            .tensorDestroy (w.nextHandle + 1), .tensorDestroy w.nextHandle] 2))
  | outputFailed (encodings : List Encoding) (inp : BatchInputs) (err : GoError)
      (htok : c.EncodeBatch w (encodeInputs sentences) true = .ok encodings)
      (hbuild : buildInputs sentences.length encodings = some inp)
      (hout : c.NewEmptyTensor
        (w.after [.encodeBatch (encodeInputs sentences) true (.ok encodings),
          .newTensor inp.inputShape inp.bufs.inputIdsData (.ok w.nextHandle),
          .newTensor inp.inputShape inp.bufs.attentionMaskData (.ok (w.nextHandle + 1)),
          .newTensor inp.inputShape inp.bufs.tokenTypeIdsData (.ok (w.nextHandle + 2))] 3)
        (NewShape [(sentences.length : Int), (hiddenSize : Int)]) = some err) :
      BatchPath c m w sentences
        (.returned ⟨none, some (wrapErrorf "failed to create empty tensor: " err)⟩
          (w.after [.encodeBatch (encodeInputs sentences) true (.ok encodings),
            .newTensor inp.inputShape inp.bufs.inputIdsData (.ok w.nextHandle),
            .newTensor inp.inputShape inp.bufs.attentionMaskData (.ok (w.nextHandle + 1)),
            .newTensor inp.inputShape inp.bufs.tokenTypeIdsData (.ok (w.nextHandle + 2)),
            .newEmptyTensor (NewShape [(sentences.length : Int), (hiddenSize : Int)])
              (.fail err),
            .tensorDestroy (w.nextHandle + 2), .tensorDestroy (w.nextHandle + 1),
            .tensorDestroy w.nextHandle] 3))
  | ran (encodings : List Encoding) (inp : BatchInputs) (r : Res (List F32))
      (htok : c.EncodeBatch w (encodeInputs sentences) true = .ok encodings)
      (hbuild : buildInputs sentences.length encodings = some inp)
      (hrun : c.Run
        (w.after [.encodeBatch (encodeInputs sentences) true (.ok encodings),
          .newTensor inp.inputShape inp.bufs.inputIdsData (.ok w.nextHandle),
          .newTensor inp.inputShape inp.bufs.attentionMaskData (.ok (w.nextHandle + 1)),
          .newTensor inp.inputShape inp.bufs.tokenTypeIdsData (.ok (w.nextHandle + 2)),
          .newEmptyTensor (NewShape [(sentences.length : Int), (hiddenSize : Int)])
            (.ok (w.nextHandle + 3))] 4)
        m.session
        [⟨w.nextHandle, inp.inputShape, inp.bufs.inputIdsData⟩,
          ⟨w.nextHandle + 1, inp.inputShape, inp.bufs.attentionMaskData⟩,
          ⟨w.nextHandle + 2, inp.inputShape, inp.bufs.tokenTypeIdsData⟩]
        [⟨w.nextHandle + 3, NewShape [(sentences.length : Int), (hiddenSize : Int)]⟩] = r) :
      BatchPath c m w sentences
        (.returned (runReturn sentences.length r)
          (w.after [.encodeBatch (encodeInputs sentences) true (.ok encodings),
            .newTensor inp.inputShape inp.bufs.inputIdsData (.ok w.nextHandle),
            .newTensor inp.inputShape inp.bufs.attentionMaskData (.ok (w.nextHandle + 1)),
            .newTensor inp.inputShape inp.bufs.tokenTypeIdsData (.ok (w.nextHandle + 2)),
            .newEmptyTensor (NewShape [(sentences.length : Int), (hiddenSize : Int)])
              (.ok (w.nextHandle + 3)),
            .run m.session
              [⟨w.nextHandle, inp.inputShape, inp.bufs.inputIdsData⟩,
                ⟨w.nextHandle + 1, inp.inputShape, inp.bufs.attentionMaskData⟩,
                ⟨w.nextHandle + 2, inp.inputShape, inp.bufs.tokenTypeIdsData⟩]
              [⟨w.nextHandle + 3, NewShape [(sentences.length : Int), (hiddenSize : Int)]⟩]
              r,
            .tensorDestroy (w.nextHandle + 3), .tensorDestroy (w.nextHandle + 2),
            .tensorDestroy (w.nextHandle + 1), .tensorDestroy w.nextHandle] 4))

/-- The `(shape, data)` pairs handed to `ort.NewTensor` in a list of calls. -/
def tensorRequests : List Event → List (Shape × List Int)
  | [] => []
  | .newTensor shape data _ :: rest => (shape, data) :: tensorRequests rest
  | _ :: rest => tensorRequests rest

/-- Follows the spec: `computeOne(s)` is `computeBatch([s])[0]`, the first vector of
the one-element batch call when that call succeeds and its error when it fails (a
panic of the batch call is a panic).  `none` where the batch call succeeds and has no
first element, so that `[0]` is undefined. -/
def computeOneSpec (c : Collab) (m : Model) (w : World) (s : String) :
    Option (Outcome ComputeReturn) :=
  match ComputeBatch c m w [s] with
  | .panicked w1 => some (.panicked w1)
  | .returned ⟨_, some e⟩ w1 => some (.returned ⟨none, some e⟩ w1)
  | .returned ⟨none, none⟩ _ => none
  | .returned ⟨some rows, none⟩ w1 =>
    (rows[0]?).map (fun v => .returned ⟨some v, none⟩ w1)

/-- The tokenizer's contract (spec 4.1): a successful batch call returns one encoding
per input, in order, all padded to one common length, and equal inputs of one batch
get equal encodings. -/
def TokenizerContract (c : Collab) : Prop :=
  ∀ (w : World) (inputs : List EncodeInput) (encs : List Encoding),
    c.EncodeBatch w inputs true = .ok encs →
      encs.length = inputs.length ∧
      (∃ L, ∀ enc ∈ encs,
        enc.Ids.length = L ∧ enc.AttentionMask.length = L ∧ enc.TypeIds.length = L) ∧
      ∀ i j, i < inputs.length → j < inputs.length → inputs[i]? = inputs[j]? →
        encs[i]? = encs[j]?

/-- The engine's contract (spec 4.3): on inputs of declared shape `(N, L)` the output
row of sentence `n` is a function of the length `L` and of row `n` of the three input
buffers alone. -/
def EngineRowContract (c : Collab) : Prop :=
  ∃ rowFn : Nat → List Int → List Int → List Int → List F32,
    ∀ (w : World) (session : Option Nat) (ids mask types : Int64Tensor)
      (out : Float32Tensor) (N L : Nat) (flat : List F32),
      c.Run w session [ids, mask, types] [out] = .ok flat →
      ids.shape = [(N : Int), (L : Int)] →
      ∀ n, n < N → rowOf hiddenSize n flat
        = rowFn L (rowOf L n ids.data) (rowOf L n mask.data) (rowOf L n types.data)

/-! ## Sample collaborators -/

/-- A sample tokenizer answer: every sentence becomes three tokens, the middle one
being the number of characters of the sentence. -/
def sampleEncoding (input : EncodeInput) : Encoding :=
  ⟨[101, (input.raw.length : Int), 102], [0, 0, 0], [1, 1, 1]⟩

/-- The number of rows declared by the first input tensor. -/
def declaredRows : List Int64Tensor → Nat
  | t :: _ => (t.shape.headD 0).toNat
  | [] => 0

/-- A sample output row: 384 copies of a value read off the row's token ids (its
second token). -/
def sampleRow (ids : List Int) : List F32 :=
  List.replicate hiddenSize (ids.getD 1 0).toNat

/-- A sample engine run: on three inputs, the first of declared shape `(rows, cols)`,
the output holds `sampleRow` of each row of the first input, row after row. -/
def sampleRun (inputs : List Int64Tensor) : Res (List F32) :=
  match inputs with
  | [ids, _, _] =>
    match ids.shape with
    | [rows, cols] =>
      .ok ((List.range rows.toNat).flatMap (fun n => sampleRow (rowOf cols.toNat n ids.data)))
    | _ => .fail (.ext "shape rejected")
  | _ => .fail (.ext "wrong number of inputs")

/-- Sample collaborators that never fail on the calls `ComputeBatch` makes: the
tokenizer answers with `sampleEncoding`, the engine with `sampleRun`. -/
def sampleCollab : Collab where
  EncodeBatch := fun _ inputs _ => .ok (inputs.map sampleEncoding)
  NewTensor := fun _ _ _ => none
  NewEmptyTensor := fun _ _ => none
  Run := fun _ _ inputs _ => sampleRun inputs
  DestroyEnvironment := fun _ => none
  FromReader := fun _ => none
  LookupEnv := fun _ _ => none
  InitializeEnvironment := fun _ => none
  NewSession := fun _ _ _ => none

/-- Sample collaborators whose engine run fails with the error `engine fault`. -/
def failingRunCollab : Collab :=
  { sampleCollab with Run := fun _ _ _ _ => .fail (.ext "engine fault") }

/-- Sample collaborators whose engine leaves one value too few in the output. -/
def shortOutputCollab : Collab :=
  { sampleCollab with
    Run := fun _ _ inputs _ => .ok (List.replicate (declaredRows inputs * hiddenSize - 1) 7) }

/-- The world before any call. -/
def sampleWorld : World := ⟨[], 0⟩

/-- A model holding session handle 0. -/
def sampleModel : Model := ⟨some 0, ""⟩

/-! ## Tensors and sessions in a trace -/

/-- The handles of the tensors successfully created in a list of calls, oldest
first. -/
def createdTensors : List Event → List Nat
  | [] => []
  | .newTensor _ _ (.ok handle) :: rest => handle :: createdTensors rest
  | .newEmptyTensor _ (.ok handle) :: rest => handle :: createdTensors rest
  | _ :: rest => createdTensors rest

/-- The handles of the tensors destroyed in a list of calls, oldest first. -/
def destroyedTensors : List Event → List Nat
  | [] => []
  | .tensorDestroy handle :: rest => handle :: destroyedTensors rest
  | _ :: rest => destroyedTensors rest

/-- The live tensors after a list of calls, starting from the live tensors `live`: a
successful creation adds its handle, a destruction removes one occurrence of its
handle. -/
def liveAfter : List Nat → List Event → List Nat
  | live, [] => live
  | live, .newTensor _ _ (.ok handle) :: rest => liveAfter (handle :: live) rest
  | live, .newEmptyTensor _ (.ok handle) :: rest => liveAfter (handle :: live) rest
  | live, .tensorDestroy handle :: rest => liveAfter (live.erase handle) rest
  | live, _ :: rest => liveAfter live rest

/-- The live tensors of a world: those created and not yet destroyed in its trace. -/
def liveTensors (w : World) : List Nat :=
  liveAfter [] w.trace

/-- The sessions destroyed in a list of calls, oldest first, one entry per call of
`session.Destroy()`. -/
def sessionDestroys : List Event → List Nat
  | [] => []
  | .sessionDestroy session :: rest => session :: sessionDestroys rest
  | _ :: rest => sessionDestroys rest

/-- One operation of an owner on a model. -/
inductive Op where
  | close
  | compute (sentence : String)
  | computeBatch (sentences : List String)
  deriving DecidableEq, Repr

/-- The number of `Close` calls in a sequence of operations. -/
def closeCount : List Op → Nat
  | [] => 0
  | .close :: rest => closeCount rest + 1
  | _ :: rest => closeCount rest

/-- The model and the world after one operation.  A panic of `Compute` or
`ComputeBatch` leaves the model as it was; the owner may recover from it or run
deferred calls, so the sequence may go on. -/
def runOp (c : Collab) (m : Model) (w : World) : Op → Model × World
  | .close => ((Close c m w).model, (Close c m w).world)
  | .compute sentence => (m, (Compute c m w sentence).world)
  | .computeBatch sentences => (m, (ComputeBatch c m w sentences).world)

/-- The model and the world after a sequence of operations on one model. -/
def runOps (c : Collab) : Model → World → List Op → Model × World
  | m, w, [] => (m, w)
  | m, w, op :: rest => runOps c (runOp c m w op).1 (runOp c m w op).2 rest

/-- The session destructions `count` calls of `Close` make on the model `m`: that
many destructions of its session, none when its session pointer is `nil`. -/
def closeDestroys (m : Model) (count : Nat) : List Nat :=
  match m.session with
  | some session => List.replicate count session
  | none => []

/-! ## The input buffers -/

/-- One row loop that stays inside the buffer succeeds, keeps the length, and
changes exactly the cells `base+i ..< base+i+|vals|`. -/
theorem writeRow_cells (base : Nat) (vals : List Int) :
    ∀ (i : Nat) (buf : List Int), base + i + vals.length ≤ buf.length →
      ∃ out, writeRow base i vals buf = some out ∧ out.length = buf.length ∧
        ∀ k, out[k]? =
          if base + i ≤ k ∧ k < base + i + vals.length then vals[k - (base + i)]?
          else buf[k]? := by
  induction vals with
  | nil =>
    intro i buf _
    refine ⟨buf, rfl, rfl, fun k => ?_⟩
    have hk : ¬ (base + i ≤ k ∧ k < base + i + ([] : List Int).length) := by
      simp only [List.length_nil]; omega
    rw [if_neg hk]
  | cons v vs ih =>
    intro i buf h
    simp only [List.length_cons] at h
    have hlt : base + i < buf.length := by omega
    have hlen : base + (i + 1) + vs.length ≤ (buf.set (base + i) v).length := by
      rw [List.length_set]; omega
    obtain ⟨out, hout, hl, hcells⟩ := ih (i + 1) (buf.set (base + i) v) hlen
    refine ⟨out, ?_, ?_, fun k => ?_⟩
    · simp only [writeRow, writeAt, if_pos hlt]
      exact hout
    · rw [hl, List.length_set]
    · rw [hcells k, List.getElem?_set]
      simp only [List.length_cons]
      by_cases h1 : base + (i + 1) ≤ k ∧ k < base + (i + 1) + vs.length
      · have h2 : base + i ≤ k ∧ k < base + i + (vs.length + 1) := by omega
        rw [if_pos h1, if_pos h2]
        have h3 : k - (base + i) = (k - (base + (i + 1))) + 1 := by omega
        rw [h3, List.getElem?_cons_succ]
      · rw [if_neg h1]
        by_cases h4 : base + i = k
        · have h2 : base + i ≤ k ∧ k < base + i + (vs.length + 1) := by omega
          rw [if_pos h4, if_pos hlt, if_pos h2]
          have h3 : k - (base + i) = 0 := by omega
          rw [h3]; simp
        · have h2 : ¬ (base + i ≤ k ∧ k < base + i + (vs.length + 1)) := by omega
          rw [if_neg h4, if_neg h2]

/-- Cell `l` of row `n` lies in row `b` only when `n = b`. -/
theorem cell_in_row_iff (L n b l : Nat) (hl : l < L) :
    (b * L + 0 ≤ n * L + l ∧ n * L + l < b * L + 0 + L) ↔ n = b := by
  constructor
  · rintro ⟨h1, h2⟩
    rcases Nat.lt_trichotomy n b with h | h | h
    · have : (n + 1) * L ≤ b * L := Nat.mul_le_mul_right L h
      rw [Nat.add_mul] at this; omega
    · exact h
    · have : (b + 1) * L ≤ n * L := Nat.mul_le_mul_right L h
      rw [Nat.add_mul] at this; omega
  · rintro rfl
    omega

/-- Writing one full row `b` of length `L` into a buffer of `N*L` cells. -/
theorem writeRow_row (encodings : List Encoding) (N L b : Nat) (field : Encoding → List Int)
    (enc : Encoding) (buf : List Int) (hb : b < N) (henc : encodings[b]? = some enc)
    (hf : (field enc).length = L) (hbuf : buf.length = N * L) :
    ∃ out, writeRow (b * L) 0 (field enc) buf = some out ∧
      RowsWritten encodings L field [b] buf out := by
  have hfit : b * L + 0 + (field enc).length ≤ buf.length := by
    have : (b + 1) * L ≤ N * L := Nat.mul_le_mul_right L hb
    rw [Nat.add_mul] at this; omega
  obtain ⟨out, hout, hl, hcells⟩ := writeRow_cells (b * L) (field enc) 0 buf hfit
  refine ⟨out, hout, hl, fun n l hlL => ?_⟩
  rw [hcells, hf]
  by_cases hn : n = b
  · subst hn
    have h1 : n * L + 0 ≤ n * L + l ∧ n * L + l < n * L + 0 + L := by omega
    have h2 : n * L + l - (n * L + 0) = l := by omega
    rw [if_pos h1, h2]
    simp [henc]
  · have h1 : ¬ (b * L + 0 ≤ n * L + l ∧ n * L + l < b * L + 0 + L) := by
      rw [cell_in_row_iff L n b l hlL]; exact hn
    rw [if_neg h1]
    simp [hn]

/-- Writing row `b` first and the rows `bs` afterwards. -/
theorem RowsWritten.cons {encodings : List Encoding} {L : Nat} {field : Encoding → List Int}
    {b : Nat} {bs : List Nat} {old mid new : List Int}
    (h1 : RowsWritten encodings L field [b] old mid)
    (h2 : RowsWritten encodings L field bs mid new) :
    RowsWritten encodings L field (b :: bs) old new := by
  refine ⟨h2.1.trans h1.1, fun n l hl => ?_⟩
  rw [h2.2 n l hl]
  by_cases hn : n ∈ bs
  · simp [hn]
  · rw [if_neg hn, h1.2 n l hl]
    by_cases hb : n = b
    · simp [hb]
    · simp [hb, hn]

/-- The fill loop over rows `bs`, all below `N`, on encodings of common length `L` and
buffers of `N*L` cells: it does not panic, and each buffer has the rows `bs` written. -/
theorem fillRows_rows (encodings : List Encoding) (N L : Nat) (hN : encodings.length = N)
    (hL : ∀ enc ∈ encodings,
      enc.Ids.length = L ∧ enc.AttentionMask.length = L ∧ enc.TypeIds.length = L) :
    ∀ (bs : List Nat) (bufs : Buffers), (∀ b ∈ bs, b < N) →
      bufs.inputIdsData.length = N * L → bufs.attentionMaskData.length = N * L →
      bufs.tokenTypeIdsData.length = N * L →
      ∃ out, fillRows encodings L bs bufs = some out ∧
        RowsWritten encodings L (fun e => e.Ids) bs bufs.inputIdsData out.inputIdsData ∧
        RowsWritten encodings L (fun e => e.AttentionMask) bs bufs.attentionMaskData
          out.attentionMaskData ∧
        RowsWritten encodings L (fun e => e.TypeIds) bs bufs.tokenTypeIdsData
          out.tokenTypeIdsData := by
  intro bs
  induction bs with
  | nil =>
    intro bufs _ _ _ _
    exact ⟨bufs, rfl, ⟨rfl, fun n l _ => by simp⟩, ⟨rfl, fun n l _ => by simp⟩,
      ⟨rfl, fun n l _ => by simp⟩⟩
  | cons b bs ih =>
    intro bufs hbs h1 h2 h3
    have hb : b < N := hbs b (List.mem_cons_self b bs)
    have hbl : b < encodings.length := by omega
    have henc : encodings[b]? = some encodings[b] := List.getElem?_eq_getElem hbl
    obtain ⟨e1, e2, e3⟩ := hL encodings[b] (List.getElem_mem hbl)
    obtain ⟨ids, hids, wids⟩ :=
      writeRow_row encodings N L b (fun e => e.Ids) encodings[b] bufs.inputIdsData hb henc e1 h1
    obtain ⟨mask, hmask, wmask⟩ :=
      writeRow_row encodings N L b (fun e => e.AttentionMask) encodings[b]
        bufs.attentionMaskData hb henc e2 h2
    obtain ⟨types, htypes, wtypes⟩ :=
      writeRow_row encodings N L b (fun e => e.TypeIds) encodings[b]
        bufs.tokenTypeIdsData hb henc e3 h3
    obtain ⟨out, hout, o1, o2, o3⟩ := ih ⟨ids, mask, types⟩
      (fun x hx => hbs x (List.mem_cons_of_mem b hx))
      (wids.1.trans h1) (wmask.1.trans h2) (wtypes.1.trans h3)
    refine ⟨out, ?_, wids.cons o1, wmask.cons o2, wtypes.cons o3⟩
    simp only [fillRows, henc]
    rw [hids, hmask, htypes]
    exact hout

/-! ## The output rows -/

/-- Copying a full row into a fresh row of the same width gives that row. -/
theorem copySlice_full {α : Type} (dst src : List α) (h : src.length = dst.length) :
    copySlice dst src = src := by
  simp [copySlice, h]

/-- Slicing row `i` out of a buffer that holds at least `i+1` rows. -/
theorem sliceRange_row (flat : List F32) (N i : Nat) (hflat : flat.length = N * hiddenSize)
    (hi : i < N) :
    sliceRange flat (i * hiddenSize) (i * hiddenSize + hiddenSize)
      = some (rowOf hiddenSize i flat) ∧ (rowOf hiddenSize i flat).length = hiddenSize := by
  have hfit : i * hiddenSize + hiddenSize ≤ flat.length := by
    have : (i + 1) * hiddenSize ≤ N * hiddenSize := Nat.mul_le_mul_right hiddenSize hi
    rw [Nat.add_mul] at this; omega
  constructor
  · have hc : i * hiddenSize ≤ i * hiddenSize + hiddenSize ∧
        i * hiddenSize + hiddenSize ≤ flat.length := ⟨by omega, hfit⟩
    simp only [sliceRange, if_pos hc, rowOf, Nat.add_sub_cancel_left]
  · simp only [rowOf, List.length_take, List.length_drop]
    omega

/-- The extraction loop over rows `bs`, all below `N`, on an output buffer of
`N*hiddenSize` cells: it does not panic, keeps the number of rows, and sets each row
in `bs` to the matching row of the buffer. -/
theorem extractRows_rows (flat : List F32) (N : Nat) (hflat : flat.length = N * hiddenSize) :
    ∀ (bs : List Nat) (results : List (List F32)), (∀ b ∈ bs, b < N) → results.length = N →
      ∃ out, extractRows flat bs results = some out ∧ out.length = N ∧
        ∀ n, out[n]? = if n ∈ bs then
            (if n < N then some (rowOf hiddenSize n flat) else none)
          else results[n]? := by
  intro bs
  induction bs with
  | nil =>
    intro results _ hr
    exact ⟨results, rfl, hr, fun n => by simp⟩
  | cons i rest ih =>
    intro results hbs hr
    have hi : i < N := hbs i (List.mem_cons_self i rest)
    obtain ⟨hs, hlen⟩ := sliceRange_row flat N i hflat hi
    have hcopy : copySlice (List.replicate hiddenSize 0) (rowOf hiddenSize i flat)
        = rowOf hiddenSize i flat :=
      copySlice_full _ _ (by rw [hlen, List.length_replicate])
    obtain ⟨out, hout, hol, hcells⟩ := ih (results.set i (rowOf hiddenSize i flat))
      (fun x hx => hbs x (List.mem_cons_of_mem i hx)) (by rw [List.length_set]; exact hr)
    refine ⟨out, ?_, hol, fun n => ?_⟩
    · have hir : i < results.length := by omega
      simp only [extractRows, hs, hcopy, if_pos hir]
      exact hout
    · rw [hcells n, List.getElem?_set]
      by_cases hn : n ∈ rest
      · simp [hn]
      · by_cases hni : i = n
        · subst hni
          simp [hn, hr, hi]
        · have : n ≠ i := fun h => hni h.symm
          simp [hn, hni, this]

/-- On an output buffer of exactly `batchSize*hiddenSize` cells the extraction
returns, without error, one row per sentence: row `n` of the buffer at position `n`. -/
theorem extractResults_ok (batchSize : Nat) (flat : List F32)
    (hflat : flat.length = batchSize * hiddenSize) :
    ∃ rows, extractResults batchSize flat = some ⟨some rows, none⟩ ∧
      rows.length = batchSize ∧
      ∀ n, n < batchSize → rows[n]? = some (rowOf hiddenSize n flat) := by
  obtain ⟨out, hout, hol, hcells⟩ := extractRows_rows flat batchSize hflat
    (List.range batchSize) (List.replicate batchSize [])
    (fun b hb => List.mem_range.mp hb) (List.length_replicate _ _)
  refine ⟨out, ?_, hol, fun n hn => ?_⟩
  · simp only [extractResults, hflat, ne_eq, not_true_eq_false, if_false, hout]
  · rw [hcells n, if_pos (List.mem_range.mpr hn), if_pos hn]

/-- On an output buffer of any other size the extraction returns the size-mismatch
error and no rows. -/
theorem extractResults_mismatch (batchSize : Nat) (flat : List F32)
    (hflat : flat.length ≠ batchSize * hiddenSize) :
    extractResults batchSize flat = some ⟨none, some (.errorf
      (sizeMismatchMessage flat.length (batchSize * hiddenSize)))⟩ := by
  simp only [extractResults, ne_eq, hflat, not_false_eq_true, if_true]

/-- The extraction never panics. -/
theorem extractResults_isSome (batchSize : Nat) (flat : List F32) :
    ∃ ret, extractResults batchSize flat = some ret := by
  by_cases h : flat.length = batchSize * hiddenSize
  · obtain ⟨rows, hr, _⟩ := extractResults_ok batchSize flat h
    exact ⟨_, hr⟩
  · exact ⟨_, extractResults_mismatch batchSize flat h⟩

/-! ## The paths of `ComputeBatch` -/

theorem World.log_eq_after (w : World) (e : Event) : w.log e = w.after [e] 0 := rfl

theorem World.after_log (w : World) (evs : List Event) (k : Nat) (e : Event) :
    (w.after evs k).log e = w.after (evs ++ [e]) k := by
  simp [World.after, World.log]

theorem World.after_alloc (w : World) (evs : List Event) (k : Nat) (e : Event) :
    (w.after evs k).alloc e = w.after (evs ++ [e]) (k + 1) := by
  simp [World.after, World.alloc, Nat.add_assoc]

theorem World.after_nextHandle (w : World) (evs : List Event) (k : Nat) :
    (w.after evs k).nextHandle = w.nextHandle + k := rfl

theorem newEvents_after (w : World) (evs : List Event) (k : Nat) :
    newEvents w (w.after evs k) = evs := by
  simp [newEvents, World.after]

/-- The rows the extraction returns on a buffer of the right size, in closed form. -/
theorem extractResults_eq (batchSize : Nat) (flat : List F32) :
    extractResults batchSize flat = some
      (if flat.length = batchSize * hiddenSize then
        ⟨some ((List.range batchSize).map (fun n => rowOf hiddenSize n flat)), none⟩
      else ⟨none, some (.errorf
        (sizeMismatchMessage flat.length (batchSize * hiddenSize)))⟩) := by
  by_cases h : flat.length = batchSize * hiddenSize
  · obtain ⟨rows, hr, hlen, hrows⟩ := extractResults_ok batchSize flat h
    rw [hr, if_pos h]
    have : rows = (List.range batchSize).map (fun n => rowOf hiddenSize n flat) := by
      apply List.ext_getElem?
      intro n
      by_cases hn : n < batchSize
      · rw [hrows n hn, List.getElem?_map, List.getElem?_range hn]; rfl
      · rw [List.getElem?_eq_none (by omega), List.getElem?_eq_none (by simp; omega)]
    rw [this]
  · rw [extractResults_mismatch batchSize flat h, if_neg h]

/-- Every call of `ComputeBatch` on a non-empty batch follows one of the paths. -/
theorem ComputeBatch_path (c : Collab) (m : Model) (w : World) (sentences : List String)
    (hne : sentences ≠ []) : BatchPath c m w sentences (ComputeBatch c m w sentences) := by
  have hlen : ¬ sentences.length = 0 := fun h => hne (List.length_eq_zero.mp h)
  simp only [ComputeBatch, if_neg hlen, World.log_eq_after]
  cases htok : c.EncodeBatch w (encodeInputs sentences) true with
  | fail err => exact .tokenizeFailed err htok
  | ok encodings =>
    simp only []
    cases hbuild : buildInputs sentences.length encodings with
    | none => exact .buildPanicked encodings htok hbuild
    | some inp =>
      simp only [withIdsTensor, World.after_log, World.after_alloc, World.after_nextHandle,
        List.cons_append, List.nil_append, Nat.add_zero, Nat.zero_add]
      cases hids : c.NewTensor
          (w.after [.encodeBatch (encodeInputs sentences) true (.ok encodings)] 0)
          inp.inputShape inp.bufs.inputIdsData with
      | some err => exact .idsFailed encodings inp err htok hbuild hids
      | none =>
        simp only [withMaskTensor, World.after_log, World.after_alloc,
          World.after_nextHandle, List.cons_append, List.nil_append, Nat.add_zero,
          Nat.zero_add]
        cases hmask : c.NewTensor
            (w.after [.encodeBatch (encodeInputs sentences) true (.ok encodings),
              .newTensor inp.inputShape inp.bufs.inputIdsData (.ok w.nextHandle)] 1)
            inp.inputShape inp.bufs.attentionMaskData with
        | some err =>
          simp only [Outcome.deferDestroy, World.after_log, List.cons_append,
            List.nil_append]
          exact .maskFailed encodings inp err htok hbuild hmask
        | none =>
          simp only [withTypeTensor, World.after_log, World.after_alloc,
            World.after_nextHandle, List.cons_append, List.nil_append]
          cases htypes : c.NewTensor
              (w.after [.encodeBatch (encodeInputs sentences) true (.ok encodings),
                .newTensor inp.inputShape inp.bufs.inputIdsData (.ok w.nextHandle),
                .newTensor inp.inputShape inp.bufs.attentionMaskData
                  (.ok (w.nextHandle + 1))] 2)
              inp.inputShape inp.bufs.tokenTypeIdsData with
          | some err =>
            simp only [Outcome.deferDestroy, World.after_log, List.cons_append,
              List.nil_append]
            exact .typesFailed encodings inp err htok hbuild htypes
          | none =>
            simp only [withOutputTensor, World.after_log, World.after_alloc,
              World.after_nextHandle, List.cons_append, List.nil_append]
            cases hout : c.NewEmptyTensor
                (w.after [.encodeBatch (encodeInputs sentences) true (.ok encodings),
                  .newTensor inp.inputShape inp.bufs.inputIdsData (.ok w.nextHandle),
                  .newTensor inp.inputShape inp.bufs.attentionMaskData
                    (.ok (w.nextHandle + 1)),
                  .newTensor inp.inputShape inp.bufs.tokenTypeIdsData
                    (.ok (w.nextHandle + 2))] 3)
                (NewShape [(sentences.length : Int), (hiddenSize : Int)]) with
            | some err =>
              simp only [Outcome.deferDestroy, World.after_log, List.cons_append,
                List.nil_append]
              exact .outputFailed encodings inp err htok hbuild hout
            | none =>
              simp only [runAndExtract, World.after_log, World.after_alloc,
                World.after_nextHandle, List.cons_append, List.nil_append,
                extractResults_eq]
              cases hrun : c.Run
                  (w.after [.encodeBatch (encodeInputs sentences) true (.ok encodings),
                    .newTensor inp.inputShape inp.bufs.inputIdsData (.ok w.nextHandle),
                    .newTensor inp.inputShape inp.bufs.attentionMaskData
                      (.ok (w.nextHandle + 1)),
                    .newTensor inp.inputShape inp.bufs.tokenTypeIdsData
                      (.ok (w.nextHandle + 2)),
                    .newEmptyTensor (NewShape [(sentences.length : Int), (hiddenSize : Int)])
                      (.ok (w.nextHandle + 3))] 4)
                  m.session
                  [⟨w.nextHandle, inp.inputShape, inp.bufs.inputIdsData⟩,
                    ⟨w.nextHandle + 1, inp.inputShape, inp.bufs.attentionMaskData⟩,
                    ⟨w.nextHandle + 2, inp.inputShape, inp.bufs.tokenTypeIdsData⟩]
                  [⟨w.nextHandle + 3,
                    NewShape [(sentences.length : Int), (hiddenSize : Int)]⟩] with
              | fail err =>
                simp only [Outcome.deferDestroy, World.after_log, List.cons_append,
                  List.nil_append]
                exact @BatchPath.ran c m w sentences encodings inp (.fail err) htok hbuild hrun
              | ok flat =>
                simp only [Outcome.deferDestroy, World.after_log, List.cons_append,
                  List.nil_append]
                exact @BatchPath.ran c m w sentences encodings inp (.ok flat) htok hbuild hrun

/-- A successful call on a non-empty batch ran the engine exactly once, got an output
buffer of `N*hiddenSize` cells, and returns its rows in order. -/
theorem ComputeBatch_success (c : Collab) (m : Model) (w w' : World) (sentences : List String)
    (ret : BatchReturn) (hne : sentences ≠ [])
    (h : ComputeBatch c m w sentences = .returned ret w') (herr : ret.err = none) :
    ∃ flat, runResults (newEvents w w') = [.ok flat] ∧
      flat.length = sentences.length * hiddenSize ∧
      ret.results = some ((List.range sentences.length).map (fun n => rowOf hiddenSize n flat)) := by
  have hp := ComputeBatch_path c m w sentences hne
  rw [h] at hp
  cases hp with
  | tokenizeFailed err htok => simp at herr
  | idsFailed encodings inp err htok hbuild hids => simp at herr
  | maskFailed encodings inp err htok hbuild hmask => simp at herr
  | typesFailed encodings inp err htok hbuild htypes => simp at herr
  | outputFailed encodings inp err htok hbuild hout => simp at herr
  | ran encodings inp r htok hbuild hrun =>
    cases r with
    | fail err => simp [runReturn] at herr
    | ok flat =>
      by_cases hlen : flat.length = sentences.length * hiddenSize
      · refine ⟨flat, ?_, hlen, ?_⟩
        · simp [newEvents_after, runResults]
        · simp [runReturn, hlen]
      · simp [runReturn, hlen] at herr

/-- Cell `h` of row `n` of a flat buffer is the cell at flat index `n*width + h`. -/
theorem rowOf_getElem? {α : Type} (width n h : Nat) (flat : List α) :
    (rowOf width n flat)[h]? = if h < width then flat[n * width + h]? else none := by
  simp only [rowOf, List.getElem?_take, List.getElem?_drop]

/-- Compute path analysis: what `Compute` returns, read off the path of the batch call. -/
theorem Compute_of_path (c : Collab) (m : Model) (w : World) (s : String) :
    computeOneSpec c m w s = some (Compute c m w s) ∧
      (Compute c m w s).world = (ComputeBatch c m w [s]).world ∧
      ∀ ret w', Compute c m w s = .returned ret w' → ret.err = none →
        ∃ v, ret.result = some v ∧ v.length = hiddenSize ∧
          ComputeBatch c m w [s] = .returned ⟨some [v], none⟩ w' := by
  have hp := ComputeBatch_path c m w [s] (by simp)
  simp only [computeOneSpec, Compute]
  generalize ComputeBatch c m w [s] = o at hp
  cases hp with
  | tokenizeFailed err htok => simp [Outcome.world]
  | buildPanicked encodings htok hbuild => simp [Outcome.world]
  | idsFailed encodings inp err htok hbuild hids => simp [Outcome.world]
  | maskFailed encodings inp err htok hbuild hmask => simp [Outcome.world]
  | typesFailed encodings inp err htok hbuild htypes => simp [Outcome.world]
  | outputFailed encodings inp err htok hbuild hout => simp [Outcome.world]
  | ran encodings inp r htok hbuild hrun =>
    cases r with
    | fail err => simp [runReturn, Outcome.world]
    | ok flat =>
      by_cases hlen : flat.length = hiddenSize
      · have hrow := (sliceRange_row flat 1 0 (by omega) (by omega)).2
        simp [runReturn, hlen, Outcome.world, List.range_succ]
        exact hrow
      · simp [runReturn, hlen, Outcome.world]

/-! ## The claims -/

/-- C1: for every model, world and sentence `s`, `Compute(s)` is the first element of
`ComputeBatch([s])` as the spec defines it: the first vector when the batch call
succeeds (it always has one), the same error when it fails; and `Compute` makes no
collaborator call of its own, the world after it being the world after the batch
call. -/
theorem C1_compute_is_first_of_batch (c : Collab) (m : Model) (w : World) (s : String) :
    computeOneSpec c m w s = some (Compute c m w s) ∧
      (Compute c m w s).world = (ComputeBatch c m w [s]).world :=
  ⟨(Compute_of_path c m w s).1, (Compute_of_path c m w s).2.1⟩

/-- C2: on the empty list `ComputeBatch` returns the nil result and no error, in an
unchanged world: no call to the tokenizer, to tensor creation or to the engine is
added to the trace. -/
theorem C2_empty_batch (c : Collab) (m : Model) (w : World) :
    ComputeBatch c m w [] = .returned ⟨none, none⟩ w ∧
      newEvents w (ComputeBatch c m w []).world = [] := by
  constructor
  · rfl
  · simp [ComputeBatch, Outcome.world, newEvents]

/-- C3: when `ComputeBatch` returns without error on a non-empty batch of `N`
sentences, the result is `N` vectors of 384 values each, the engine ran exactly once
with an output buffer `flat`, and element `h` of vector `n` is `flat[n*384 + h]`. -/
theorem C3_rows_of_output (c : Collab) (m : Model) (w w' : World) (sentences : List String)
    (ret : BatchReturn) (hne : sentences ≠ [])
    (h : ComputeBatch c m w sentences = .returned ret w') (herr : ret.err = none) :
    ∃ rows flat, ret.results = some rows ∧ rows.length = sentences.length ∧
      (∀ row ∈ rows, row.length = 384) ∧
      runResults (newEvents w w') = [.ok flat] ∧
      ∀ n k, n < sentences.length → k < 384 →
        ∃ v, flat[n * 384 + k]? = some v ∧ (rows[n]?).bind (fun row => row[k]?) = some v := by
  obtain ⟨flat, hrun, hlen, hres⟩ := ComputeBatch_success c m w w' sentences ret hne h herr
  refine ⟨_, flat, hres, by simp, ?_, hrun, ?_⟩
  · intro row hrow
    obtain ⟨n, hn, rfl⟩ := List.mem_map.mp hrow
    exact (sliceRange_row flat sentences.length n hlen (List.mem_range.mp hn)).2
  · intro n k hn hk
    have hidx : n * 384 + k < flat.length := by
      have : (n + 1) * 384 ≤ sentences.length * 384 := Nat.mul_le_mul_right 384 hn
      rw [hlen, hiddenSize]; omega
    refine ⟨flat[n * 384 + k], List.getElem?_eq_getElem hidx, ?_⟩
    rw [List.getElem?_map, List.getElem?_range hn]
    simp only [Option.map_some', Option.some_bind]
    rw [rowOf_getElem?, hiddenSize, if_pos hk]
    exact List.getElem?_eq_getElem hidx

set_option maxRecDepth 100000 in
/-- C3 at a two-sentence batch of the sample collaborators. -/
theorem C3_rows_of_output_witness :
    ∃ (ret : BatchReturn) (w' : World),
      ["a", "bc"] ≠ [] ∧
      ComputeBatch sampleCollab sampleModel sampleWorld ["a", "bc"] = .returned ret w' ∧
      ret.err = none ∧
      ∃ rows flat, ret.results = some rows ∧ rows.length = ["a", "bc"].length ∧
        (∀ row ∈ rows, row.length = 384) ∧
        runResults (newEvents sampleWorld w') = [.ok flat] ∧
        ∀ n k, n < ["a", "bc"].length → k < 384 →
          ∃ v, flat[n * 384 + k]? = some v ∧
            (rows[n]?).bind (fun row => row[k]?) = some v :=
  ⟨_, _, by decide, rfl, rfl,
    C3_rows_of_output sampleCollab sampleModel sampleWorld _ ["a", "bc"] _ (by decide) rfl rfl⟩

/-- C5: whenever `Compute` returns without error, the returned vector exists (it is
not nil) and has exactly 384 elements, and the one-element batch call behind it
returned exactly one row, that vector: the zero-rows branch of `Compute` is not
taken. -/
theorem C5_compute_length (c : Collab) (m : Model) (w w' : World) (s : String)
    (ret : ComputeReturn) (h : Compute c m w s = .returned ret w') (herr : ret.err = none) :
    ∃ v, ret.result = some v ∧ v.length = 384 ∧
      ComputeBatch c m w [s] = .returned ⟨some [v], none⟩ w' :=
  (Compute_of_path c m w s).2.2 ret w' h herr

set_option maxRecDepth 100000 in
/-- C5 at one sentence of the sample collaborators. -/
theorem C5_compute_length_witness :
    ∃ ret w', Compute sampleCollab sampleModel sampleWorld "a" = .returned ret w' ∧
      ret.err = none ∧ ∃ v, ret.result = some v ∧ v.length = 384 ∧
        ComputeBatch sampleCollab sampleModel sampleWorld ["a"]
          = .returned ⟨some [v], none⟩ w' :=
  ⟨_, _, rfl, rfl, C5_compute_length sampleCollab sampleModel sampleWorld _ "a" _ rfl rfl⟩

/-- What a call on a non-empty batch returns, read off the answers of the engine runs
in the calls it added: no run, or exactly one run whose answer fixes the result. -/
theorem ComputeBatch_run_cases (c : Collab) (m : Model) (w : World) (sentences : List String)
    (hne : sentences ≠ []) :
    runResults (newEvents w (ComputeBatch c m w sentences).world) = [] ∨
      ∃ r w', runResults (newEvents w (ComputeBatch c m w sentences).world) = [r] ∧
        ComputeBatch c m w sentences = .returned (runReturn sentences.length r) w' := by
  have hp := ComputeBatch_path c m w sentences hne
  generalize ComputeBatch c m w sentences = o at hp
  cases hp with
  | tokenizeFailed err htok => left; simp [Outcome.world, newEvents_after, runResults]
  | buildPanicked encodings htok hbuild =>
    left; simp [Outcome.world, newEvents_after, runResults]
  | idsFailed encodings inp err htok hbuild hids =>
    left; simp [Outcome.world, newEvents_after, runResults]
  | maskFailed encodings inp err htok hbuild hmask =>
    left; simp [Outcome.world, newEvents_after, runResults]
  | typesFailed encodings inp err htok hbuild htypes =>
    left; simp [Outcome.world, newEvents_after, runResults]
  | outputFailed encodings inp err htok hbuild hout =>
    left; simp [Outcome.world, newEvents_after, runResults]
  | ran encodings inp r htok hbuild hrun =>
    right
    exact ⟨r, _, by simp [Outcome.world, newEvents_after, runResults], rfl⟩

/-- C6: on a non-empty batch of `N` sentences whose engine run left the output buffer
`flat`: if `flat` does not have `N*384` elements, `ComputeBatch` returns no embeddings
and the error whose message gives the observed count and the expected count `N*384`;
if it has `N*384` elements, `ComputeBatch` returns embeddings and no error. -/
theorem C6_size_check (c : Collab) (m : Model) (w : World) (sentences : List String)
    (flat : List F32) (hne : sentences ≠ [])
    (hrun : runResults (newEvents w (ComputeBatch c m w sentences).world) = [.ok flat]) :
    (flat.length ≠ sentences.length * 384 →
      ∃ w', ComputeBatch c m w sentences = .returned ⟨none, some (.errorf
        ("unexpected output tensor size: got " ++ toString flat.length
          ++ " elements, expected " ++ toString (sentences.length * 384) ++ " elements"))⟩ w') ∧
    (flat.length = sentences.length * 384 →
      ∃ rows w', ComputeBatch c m w sentences = .returned ⟨some rows, none⟩ w') := by
  rcases ComputeBatch_run_cases c m w sentences hne with h0 | ⟨r, w', h1, h2⟩
  · rw [h0] at hrun; simp at hrun
  · rw [h1] at hrun
    simp only [List.cons.injEq, and_true] at hrun
    subst hrun
    constructor
    · intro hlen
      refine ⟨w', ?_⟩
      rw [h2]
      simp only [runReturn, hiddenSize, if_neg hlen, sizeMismatchMessage]
    · intro hlen
      refine ⟨(List.range sentences.length).map (fun n => rowOf 384 n flat), w', ?_⟩
      rw [h2]
      simp only [runReturn, hiddenSize, if_pos hlen]

set_option maxRecDepth 100000 in
/-- C6 at one sentence and an engine that leaves 383 values in the output. -/
theorem C6_size_check_witness :
    ["a"] ≠ [] ∧
    runResults (newEvents sampleWorld
      (ComputeBatch shortOutputCollab sampleModel sampleWorld ["a"]).world)
        = [.ok (List.replicate 383 7)] ∧
    ((List.replicate 383 7).length ≠ ["a"].length * 384 →
      ∃ w', ComputeBatch shortOutputCollab sampleModel sampleWorld ["a"]
        = .returned ⟨none, some (.errorf
          ("unexpected output tensor size: got " ++ toString (List.replicate 383 7).length
            ++ " elements, expected " ++ toString (["a"].length * 384) ++ " elements"))⟩ w') ∧
    ((List.replicate 383 7).length = ["a"].length * 384 →
      ∃ rows w', ComputeBatch shortOutputCollab sampleModel sampleWorld ["a"]
        = .returned ⟨some rows, none⟩ w') :=
  ⟨by decide, by decide,
    C6_size_check shortOutputCollab sampleModel sampleWorld ["a"] (List.replicate 383 7)
      (by decide) (by decide)⟩

/-- C7, as the code has it: on a non-empty batch whose first engine run fails with
error `e`, `ComputeBatch` returns no embeddings and the error built by
`fmt.Errorf("failed to run session: %w", e)`, whose message is that text followed by
the message of `e` and which unwraps to `e`; the engine was run exactly once. -/
theorem C7_run_error_wrapped (c : Collab) (m : Model) (w : World) (sentences : List String)
    (e : GoError) (hne : sentences ≠ [])
    (hrun : (runResults (newEvents w (ComputeBatch c m w sentences).world)).head?
      = some (.fail e)) :
    ∃ w', ComputeBatch c m w sentences
        = .returned ⟨none, some (.wrap ("failed to run session: " ++ e.Error) e)⟩ w' ∧
      (GoError.wrap ("failed to run session: " ++ e.Error) e).Unwrap = some e ∧
      runResults (newEvents w w') = [.fail e] := by
  rcases ComputeBatch_run_cases c m w sentences hne with h0 | ⟨r, w', h1, h2⟩
  · rw [h0] at hrun; simp at hrun
  · rw [h1] at hrun
    simp only [List.head?_cons, Option.some.injEq] at hrun
    subst hrun
    refine ⟨w', h2, rfl, ?_⟩
    rw [h2] at h1
    exact h1

/-- C7 at one sentence and an engine whose run fails. -/
theorem C7_run_error_wrapped_witness :
    ["a"] ≠ [] ∧
    (runResults (newEvents sampleWorld
      (ComputeBatch failingRunCollab sampleModel sampleWorld ["a"]).world)).head?
        = some (.fail (.ext "engine fault")) ∧
    ∃ w', ComputeBatch failingRunCollab sampleModel sampleWorld ["a"]
        = .returned ⟨none, some (.wrap ("failed to run session: "
            ++ (GoError.ext "engine fault").Error) (.ext "engine fault"))⟩ w' ∧
      (GoError.wrap ("failed to run session: " ++ (GoError.ext "engine fault").Error)
        (.ext "engine fault")).Unwrap = some (.ext "engine fault") ∧
      runResults (newEvents sampleWorld w') = [.fail (.ext "engine fault")] :=
  ⟨by decide, by decide,
    C7_run_error_wrapped failingRunCollab sampleModel sampleWorld ["a"] (.ext "engine fault")
      (by decide) (by decide)⟩

/-- C7 as stated fails: with an engine whose run fails with the error `engine fault`,
the error `ComputeBatch` returns is not that error but a new one wrapping it, with a
different message. -/
theorem C7_counterexample :
    ∃ ret w', ComputeBatch failingRunCollab sampleModel sampleWorld ["a"] = .returned ret w' ∧
      runResults (newEvents sampleWorld w') = [.fail (.ext "engine fault")] ∧
      ret.results = none ∧
      ret.err = some (.wrap "failed to run session: engine fault" (.ext "engine fault")) ∧
      ret.err ≠ some (.ext "engine fault") ∧
      ret.err.map GoError.Error ≠ some "engine fault" :=
  ⟨_, _, rfl, by decide, rfl, by decide, by decide, by decide⟩

/-- On `N ≥ 1` encodings of one common length `L`, lines 109-130 do not panic: the
shape is `(N, L)`, each buffer has `N*L` cells, and cell `n*L + l` holds value `l` of
the matching field of encoding `n`. -/
theorem buildInputs_ok (N L : Nat) (encs : List Encoding) (hpos : 1 ≤ N)
    (hN : encs.length = N)
    (hL : ∀ enc ∈ encs,
      enc.Ids.length = L ∧ enc.AttentionMask.length = L ∧ enc.TypeIds.length = L) :
    ∃ bufs, buildInputs N encs = some ⟨[(N : Int), (L : Int)], bufs⟩ ∧
      bufs.inputIdsData.length = N * L ∧ bufs.attentionMaskData.length = N * L ∧
      bufs.tokenTypeIdsData.length = N * L ∧
      ∀ n l enc, encs[n]? = some enc → l < L →
        bufs.inputIdsData[n * L + l]? = enc.Ids[l]? ∧
        bufs.attentionMaskData[n * L + l]? = enc.AttentionMask[l]? ∧
        bufs.tokenTypeIdsData[n * L + l]? = enc.TypeIds[l]? := by
  have h0 : 0 < encs.length := by omega
  have henc0 : encs[0]? = some encs[0] := List.getElem?_eq_getElem h0
  have hL0 : encs[0].Ids.length = L := (hL encs[0] (List.getElem_mem h0)).1
  obtain ⟨out, hout, o1, o2, o3⟩ := fillRows_rows encs N L hN hL (List.range N)
    ⟨List.replicate (N * L) 0, List.replicate (N * L) 0, List.replicate (N * L) 0⟩
    (fun b hb => List.mem_range.mp hb) (List.length_replicate _ _)
    (List.length_replicate _ _) (List.length_replicate _ _)
  refine ⟨out, ?_, ?_, ?_, ?_, ?_⟩
  · simp only [buildInputs, henc0, hL0, hout, NewShape]
  · rw [o1.1]; exact List.length_replicate _ _
  · rw [o2.1]; exact List.length_replicate _ _
  · rw [o3.1]; exact List.length_replicate _ _
  · intro n l enc henc hl
    have hn : n < N := by
      rw [← hN]
      exact (List.getElem?_eq_some_iff.mp henc).1
    have hmem : n ∈ List.range N := List.mem_range.mpr hn
    refine ⟨?_, ?_, ?_⟩
    · rw [o1.2 n l hl, if_pos hmem, henc]; rfl
    · rw [o2.2 n l hl, if_pos hmem, henc]; rfl
    · rw [o3.2 n l hl, if_pos hmem, henc]; rfl

/-- The tensor creations of a call whose tokenizer answered and whose buffers were
built: the requests made are the first one, two or three of the three buffers, in the
order ids, mask, types, each with the declared input shape. -/
theorem ComputeBatch_tensorRequests (c : Collab) (m : Model) (w : World)
    (sentences : List String) (encs : List Encoding) (inp : BatchInputs)
    (hne : sentences ≠ [])
    (htok : c.EncodeBatch w (encodeInputs sentences) true = .ok encs)
    (hbuild : buildInputs sentences.length encs = some inp) :
    (tensorRequests (newEvents w (ComputeBatch c m w sentences).world)).head?
        = some (inp.inputShape, inp.bufs.inputIdsData) ∧
      tensorRequests (newEvents w (ComputeBatch c m w sentences).world) <+:
        [(inp.inputShape, inp.bufs.inputIdsData), (inp.inputShape, inp.bufs.attentionMaskData),
          (inp.inputShape, inp.bufs.tokenTypeIdsData)] := by
  have hp := ComputeBatch_path c m w sentences hne
  generalize ComputeBatch c m w sentences = o at hp
  cases hp with
  | tokenizeFailed err htok2 => rw [htok] at htok2; cases htok2
  | buildPanicked encodings htok2 hbuild2 =>
    rw [htok] at htok2; cases htok2; rw [hbuild] at hbuild2; cases hbuild2
  | idsFailed encodings inp2 err htok2 hbuild2 hids =>
    rw [htok] at htok2; cases htok2; rw [hbuild] at hbuild2; cases hbuild2
    simp only [Outcome.world, newEvents_after, tensorRequests, List.head?_cons, true_and]
    exact ⟨[_, _], rfl⟩
  | maskFailed encodings inp2 err htok2 hbuild2 hmask =>
    rw [htok] at htok2; cases htok2; rw [hbuild] at hbuild2; cases hbuild2
    simp only [Outcome.world, newEvents_after, tensorRequests, List.head?_cons, true_and]
    exact ⟨[_], rfl⟩
  | typesFailed encodings inp2 err htok2 hbuild2 htypes =>
    rw [htok] at htok2; cases htok2; rw [hbuild] at hbuild2; cases hbuild2
    simp only [Outcome.world, newEvents_after, tensorRequests, List.head?_cons, true_and]
    exact ⟨[], rfl⟩
  | outputFailed encodings inp2 err htok2 hbuild2 hout =>
    rw [htok] at htok2; cases htok2; rw [hbuild] at hbuild2; cases hbuild2
    simp only [Outcome.world, newEvents_after, tensorRequests, List.head?_cons, true_and]
    exact ⟨[], rfl⟩
  | ran encodings inp2 r htok2 hbuild2 hrun =>
    rw [htok] at htok2; cases htok2; rw [hbuild] at hbuild2; cases hbuild2
    simp only [Outcome.world, newEvents_after, tensorRequests, List.head?_cons, true_and]
    exact ⟨[], rfl⟩

/-- C4: when the tokenizer answers a non-empty batch of `N` sentences with `N`
encodings whose ids, mask and type ids all have length `L`, the three buffers
`ComputeBatch` builds have `N*L` elements each, no write panics, the element at flat
index `n*L + l` of each buffer is value `l` of the matching field of encoding `n`, and
the buffers are handed to `ort.NewTensor` with the shape `(N, L)`, ids first. -/
theorem C4_input_buffers (c : Collab) (m : Model) (w : World) (sentences : List String)
    (encs : List Encoding) (L : Nat) (hne : sentences ≠ [])
    (htok : c.EncodeBatch w (encodeInputs sentences) true = .ok encs)
    (hN : encs.length = sentences.length)
    (hL : ∀ enc ∈ encs,
      enc.Ids.length = L ∧ enc.AttentionMask.length = L ∧ enc.TypeIds.length = L) :
    ∃ bufs, buildInputs sentences.length encs
        = some ⟨[(sentences.length : Int), (L : Int)], bufs⟩ ∧
      bufs.inputIdsData.length = sentences.length * L ∧
      bufs.attentionMaskData.length = sentences.length * L ∧
      bufs.tokenTypeIdsData.length = sentences.length * L ∧
      (∀ n l enc, encs[n]? = some enc → l < L →
        bufs.inputIdsData[n * L + l]? = enc.Ids[l]? ∧
        bufs.attentionMaskData[n * L + l]? = enc.AttentionMask[l]? ∧
        bufs.tokenTypeIdsData[n * L + l]? = enc.TypeIds[l]?) ∧
      (tensorRequests (newEvents w (ComputeBatch c m w sentences).world)).head?
        = some ([(sentences.length : Int), (L : Int)], bufs.inputIdsData) ∧
      tensorRequests (newEvents w (ComputeBatch c m w sentences).world) <+:
        [([(sentences.length : Int), (L : Int)], bufs.inputIdsData),
          ([(sentences.length : Int), (L : Int)], bufs.attentionMaskData),
          ([(sentences.length : Int), (L : Int)], bufs.tokenTypeIdsData)] := by
  have hpos : 1 ≤ sentences.length := by
    cases sentences with
    | nil => exact absurd rfl hne
    | cons s rest => simp
  obtain ⟨bufs, hb, h1, h2, h3, hcells⟩ := buildInputs_ok sentences.length L encs hpos hN hL
  obtain ⟨r1, r2⟩ := ComputeBatch_tensorRequests c m w sentences encs _ hne htok hb
  exact ⟨bufs, hb, h1, h2, h3, hcells, r1, r2⟩

/-- C4 at a two-sentence batch of the sample collaborators, whose encodings have
length 3. -/
theorem C4_input_buffers_witness :
    ["a", "bc"] ≠ [] ∧
    sampleCollab.EncodeBatch sampleWorld (encodeInputs ["a", "bc"]) true
      = .ok [⟨[101, 1, 102], [0, 0, 0], [1, 1, 1]⟩, ⟨[101, 2, 102], [0, 0, 0], [1, 1, 1]⟩] ∧
    ∃ bufs, buildInputs 2
        [⟨[101, 1, 102], [0, 0, 0], [1, 1, 1]⟩, ⟨[101, 2, 102], [0, 0, 0], [1, 1, 1]⟩]
        = some ⟨[2, 3], bufs⟩ ∧
      bufs.inputIdsData = [101, 1, 102, 101, 2, 102] ∧
      bufs.attentionMaskData = [1, 1, 1, 1, 1, 1] ∧
      bufs.tokenTypeIdsData = [0, 0, 0, 0, 0, 0] := by
  obtain ⟨bufs, hb, _⟩ := C4_input_buffers sampleCollab sampleModel sampleWorld ["a", "bc"]
    [⟨[101, 1, 102], [0, 0, 0], [1, 1, 1]⟩, ⟨[101, 2, 102], [0, 0, 0], [1, 1, 1]⟩] 3
    (by decide) (by decide) (by decide) (by decide)
  refine ⟨by decide, by decide, bufs, hb, ?_⟩
  have hb2 : buildInputs 2
      [⟨[101, 1, 102], [0, 0, 0], [1, 1, 1]⟩, ⟨[101, 2, 102], [0, 0, 0], [1, 1, 1]⟩]
      = some ⟨[2, 3], ⟨[101, 1, 102, 101, 2, 102], [1, 1, 1, 1, 1, 1], [0, 0, 0, 0, 0, 0]⟩⟩ := by
    decide
  have hb3 := hb.symm.trans hb2
  simp only [Option.some.injEq, BatchInputs.mk.injEq] at hb3
  rw [hb3.2]
  exact ⟨rfl, rfl, rfl⟩

/-- The first call of `ComputeBatch` on a non-empty batch is the tokenizer call, and
an error it returns is a collaborator's error wrapped by `fmt.Errorf` or the
size-mismatch error. -/
theorem ComputeBatch_first_call (c : Collab) (m : Model) (w : World) (sentences : List String)
    (hne : sentences ≠ []) :
    (newEvents w (ComputeBatch c m w sentences).world).head?
        = some (.encodeBatch (encodeInputs sentences) true
            (c.EncodeBatch w (encodeInputs sentences) true)) ∧
      ∀ ret w', ComputeBatch c m w sentences = .returned ret w' → ∀ e, ret.err = some e →
        (∃ inner, e.Unwrap = some inner) ∨
          ∃ got, e = .errorf (sizeMismatchMessage got (sentences.length * hiddenSize)) := by
  have hp := ComputeBatch_path c m w sentences hne
  generalize ComputeBatch c m w sentences = o at hp
  cases hp with
  | tokenizeFailed err htok =>
    simp [Outcome.world, newEvents_after, htok, wrapErrorf, GoError.Unwrap]
  | buildPanicked encodings htok hbuild => simp [Outcome.world, newEvents_after, htok]
  | idsFailed encodings inp err htok hbuild hids =>
    simp [Outcome.world, newEvents_after, htok, wrapErrorf, GoError.Unwrap]
  | maskFailed encodings inp err htok hbuild hmask =>
    simp [Outcome.world, newEvents_after, htok, wrapErrorf, GoError.Unwrap]
  | typesFailed encodings inp err htok hbuild htypes =>
    simp [Outcome.world, newEvents_after, htok, wrapErrorf, GoError.Unwrap]
  | outputFailed encodings inp err htok hbuild hout =>
    simp [Outcome.world, newEvents_after, htok, wrapErrorf, GoError.Unwrap]
  | ran encodings inp r htok hbuild hrun =>
    refine ⟨by simp [Outcome.world, newEvents_after, htok], ?_⟩
    intro ret w' h e he
    simp only [Outcome.returned.injEq] at h
    obtain ⟨h1, -⟩ := h
    subst h1
    cases r with
    | fail err =>
      left
      simp only [runReturn, Option.some.injEq] at he
      subst he
      exact ⟨err, rfl⟩
    | ok flat =>
      right
      by_cases hlen : flat.length = sentences.length * hiddenSize
      · simp [runReturn, hlen] at he
      · simp only [runReturn, if_neg hlen, Option.some.injEq] at he
        exact ⟨flat.length, he.symm⟩

/-- C8, as the code has it: `Close` assigns no field of the model, so no closed state
exists.  After `Close`, `ComputeBatch` on the empty batch returns the nil result and
no error in an unchanged world; on a non-empty batch its first call is the tokenizer
call, as before `Close`, and so is the first call of `Compute`; and an error returned
after `Close` is a collaborator's error wrapped by `fmt.Errorf` or the size-mismatch
error, never an error of the model's own about a closed session. -/
theorem C8_after_close (c : Collab) (m : Model) (w : World) (s : String)
    (rest : List String) :
    (Close c m w).model = m ∧
    ComputeBatch c (Close c m w).model (Close c m w).world []
      = .returned ⟨none, none⟩ (Close c m w).world ∧
    (newEvents (Close c m w).world
      (ComputeBatch c (Close c m w).model (Close c m w).world (s :: rest)).world).head?
        = some (.encodeBatch (encodeInputs (s :: rest)) true
            (c.EncodeBatch (Close c m w).world (encodeInputs (s :: rest)) true)) ∧
    (newEvents (Close c m w).world
      (Compute c (Close c m w).model (Close c m w).world s).world).head?
        = some (.encodeBatch (encodeInputs [s]) true
            (c.EncodeBatch (Close c m w).world (encodeInputs [s]) true)) ∧
    ∀ ret w', ComputeBatch c (Close c m w).model (Close c m w).world (s :: rest)
        = .returned ret w' → ∀ e, ret.err = some e →
      (∃ inner, e.Unwrap = some inner) ∨
        ∃ got, e = .errorf (sizeMismatchMessage got ((s :: rest).length * 384)) := by
  refine ⟨rfl, rfl, ?_, ?_, ?_⟩
  · exact (ComputeBatch_first_call c _ _ (s :: rest) (by simp)).1
  · rw [(Compute_of_path c _ _ s).2.1]
    exact (ComputeBatch_first_call c _ _ [s] (by simp)).1
  · exact (ComputeBatch_first_call c _ _ (s :: rest) (by simp)).2

/-- C8 as stated fails: after `Close` on a model holding a session (the trace shows
the session and the environment destroyed), `ComputeBatch` on the empty batch returns
no error, and on a one-sentence batch it calls the tokenizer. -/
theorem C8_counterexample :
    (Close sampleCollab sampleModel sampleWorld).world.trace
      = [.sessionDestroy 0, .destroyEnvironment none] ∧
    ComputeBatch sampleCollab (Close sampleCollab sampleModel sampleWorld).model
      (Close sampleCollab sampleModel sampleWorld).world []
      = .returned ⟨none, none⟩ (Close sampleCollab sampleModel sampleWorld).world ∧
    (newEvents (Close sampleCollab sampleModel sampleWorld).world
      (ComputeBatch sampleCollab (Close sampleCollab sampleModel sampleWorld).model
        (Close sampleCollab sampleModel sampleWorld).world ["a"]).world).head?
      = some (.encodeBatch [⟨"a"⟩] true (.ok [⟨[101, 1, 102], [0, 0, 0], [1, 1, 1]⟩])) := by
  refine ⟨rfl, rfl, ?_⟩
  rw [(ComputeBatch_first_call sampleCollab _ _ ["a"] (by decide)).1]
  rfl

/-! ## The command -/

theorem sentencesPassed_append (xs ys : List Event) :
    sentencesPassed (xs ++ ys) = sentencesPassed xs ++ sentencesPassed ys := by
  induction xs with
  | nil => rfl
  | cons e rest ih =>
    cases e <;> simp [sentencesPassed, ih]

/-- The calls `Compute` adds are collaborator calls only. -/
theorem Compute_world (c : Collab) (m : Model) (w : World) (s : String) :
    ∃ evs k, (Compute c m w s).world = w.after evs k ∧ sentencesPassed evs = [] := by
  rw [(Compute_of_path c m w s).2.1]
  have hp := ComputeBatch_path c m w [s] (by simp)
  generalize ComputeBatch c m w [s] = o at hp
  cases hp <;> exact ⟨_, _, rfl, rfl⟩

/-- The calls `Close` adds are collaborator calls only. -/
theorem Close_world (c : Collab) (m : Model) (w : World) :
    ∃ evs, (Close c m w).world = w.after evs 0 ∧ sentencesPassed evs = [] := by
  cases hs : m.session with
  | none => exact ⟨[.destroyEnvironment (c.DestroyEnvironment w)], by
      simp [Close, hs, World.log, World.after], rfl⟩
  | some h => exact ⟨[.sessionDestroy h, .destroyEnvironment
      (c.DestroyEnvironment (w.log (.sessionDestroy h)))], by
      simp [Close, hs, World.log, World.after], rfl⟩

set_option maxRecDepth 100000 in
/-- C9, the failing input: on standard input holding two spaces and no newline, the
read loop yields the one sentence `""`, and the command, whatever the collaborators
answer, hands that empty sentence to `Compute` instead of exiting with code 1; with
the sample collaborators, which embed the empty sentence, the command ends with exit
code 0. -/
theorem C9_blank_tail_is_passed (c : Collab) (m : Model) (w : World) (batchMode : Bool) :
    readSentences ⟨[' ', ' '], none⟩ = .ok [""] ∧
      sentencesPassed (newEvents w (runWithModel c m w batchMode ⟨[' ', ' '], none⟩).world)
        = [""] ∧
      (runEmbedding sampleCollab sampleWorld "" false ⟨[' ', ' '], none⟩).exit
        = .exitCode 0 := by
  have hread : readSentences ⟨[' ', ' '], none⟩ = .ok [""] := by decide
  refine ⟨hread, ?_, by decide⟩
  obtain ⟨evs, k, hw, hs⟩ := Compute_world c m (w.log (.compute "")) ""
  have hpass : ∀ w1, w1 = (w.log (.compute "")).after evs k →
      sentencesPassed (newEvents w w1) = [""] ∧
      sentencesPassed (newEvents w (Close c m w1).world) = [""] := by
    intro w1 h1
    obtain ⟨cevs, hc, hcs⟩ := Close_world c m w1
    subst h1
    constructor
    · simp [newEvents, World.after, World.log, sentencesPassed_append, sentencesPassed, hs]
    · rw [hc]
      simp [newEvents, World.after, World.log, sentencesPassed_append, sentencesPassed, hs,
        hcs]
  simp only [runWithModel, hread, List.length_singleton, computeEach]
  cases hC : Compute c m (w.log (.compute "")) "" with
  | panicked w1 =>
    rw [hC] at hw
    simpa using (hpass w1 hw).2
  | returned ret w1 =>
    rw [hC] at hw
    obtain ⟨res, err⟩ := ret
    cases err with
    | some e => simpa using (hpass w1 hw).1
    | none => simpa [computeEach] using (hpass w1 hw).2

/-! ## Duplicate sentences -/

/-- The loop building `inputBatch` wraps each sentence, in order. -/
theorem encodeInputs_eq_map (sentences : List String) :
    encodeInputs sentences = sentences.map EncodeInput.mk := by
  have key : ∀ (acc : List EncodeInput) (ss : List String),
      ss.foldl (fun inputBatch s => inputBatch ++ [EncodeInput.mk s]) acc
        = acc ++ ss.map EncodeInput.mk := by
    intro acc ss
    induction ss generalizing acc with
    | nil => simp
    | cons s rest ih => simp [ih]
  simpa [encodeInputs] using key [] sentences

/-- A row of a buffer whose cells are those of `xs` is `xs`. -/
theorem rowOf_eq_of_cells (L n : Nat) (buf xs : List Int) (hlen : xs.length = L)
    (hcells : ∀ l, l < L → buf[n * L + l]? = xs[l]?) : rowOf L n buf = xs := by
  apply List.ext_getElem?
  intro l
  rw [rowOf_getElem?]
  by_cases hl : l < L
  · rw [if_pos hl, hcells l hl]
  · rw [if_neg hl, List.getElem?_eq_none (by omega)]

/-- A successful call on a non-empty batch, with the tokenizer's answer, the buffers
built and the engine run that produced the output. -/
theorem ComputeBatch_success_run (c : Collab) (m : Model) (w w' : World)
    (sentences : List String) (ret : BatchReturn) (hne : sentences ≠ [])
    (h : ComputeBatch c m w sentences = .returned ret w') (herr : ret.err = none) :
    ∃ encs inp flat wr h1 h2 h3 out,
      c.EncodeBatch w (encodeInputs sentences) true = .ok encs ∧
      buildInputs sentences.length encs = some inp ∧
      c.Run wr m.session
        [⟨h1, inp.inputShape, inp.bufs.inputIdsData⟩,
          ⟨h2, inp.inputShape, inp.bufs.attentionMaskData⟩,
          ⟨h3, inp.inputShape, inp.bufs.tokenTypeIdsData⟩] [out] = .ok flat ∧
      flat.length = sentences.length * hiddenSize ∧
      ret.results
        = some ((List.range sentences.length).map (fun n => rowOf hiddenSize n flat)) := by
  have hp := ComputeBatch_path c m w sentences hne
  rw [h] at hp
  cases hp with
  | tokenizeFailed err htok => simp at herr
  | idsFailed encodings inp err htok hbuild hids => simp at herr
  | maskFailed encodings inp err htok hbuild hmask => simp at herr
  | typesFailed encodings inp err htok hbuild htypes => simp at herr
  | outputFailed encodings inp err htok hbuild hout => simp at herr
  | ran encodings inp r htok hbuild hrun =>
    cases r with
    | fail err => simp [runReturn] at herr
    | ok flat =>
      by_cases hlen : flat.length = sentences.length * hiddenSize
      · exact ⟨encodings, inp, flat, _, _, _, _, _, htok, hbuild, hrun, hlen, by
          simp [runReturn, hlen]⟩
      · simp [runReturn, hlen] at herr

/-- The length of `N` blocks of width `W` laid end to end. -/
theorem length_flatMap_blocks {α : Type} (W : Nat) (g : Nat → List α)
    (hg : ∀ k, (g k).length = W) (N : Nat) :
    ((List.range N).flatMap g).length = N * W := by
  induction N with
  | zero => simp
  | succ N ih =>
    rw [List.range_succ, List.flatMap_append, List.length_append, ih]
    simp [hg, Nat.add_mul]

/-- Row `n` of `N` blocks of width `W` laid end to end is block `n`. -/
theorem rowOf_flatMap_blocks {α : Type} (W : Nat) (g : Nat → List α)
    (hg : ∀ k, (g k).length = W) (N n : Nat) (hn : n < N) :
    rowOf W n ((List.range N).flatMap g) = g n := by
  induction N with
  | zero => omega
  | succ N ih =>
    have hlen := length_flatMap_blocks W g hg N
    have hlast : (List.range N ++ [N]).flatMap g = (List.range N).flatMap g ++ g N := by
      rw [List.flatMap_append]; simp
    apply List.ext_getElem?
    intro h
    rw [rowOf_getElem?, List.range_succ, hlast]
    by_cases hh : h < W
    · rw [if_pos hh]
      by_cases hnN : n < N
      · have hidx : n * W + h < ((List.range N).flatMap g).length := by
          have : (n + 1) * W ≤ N * W := Nat.mul_le_mul_right W hnN
          rw [Nat.add_mul] at this; omega
        rw [List.getElem?_append_left hidx, ← ih hnN, rowOf_getElem?, if_pos hh]
      · have hnN2 : n = N := by omega
        subst hnN2
        rw [List.getElem?_append_right (by omega), hlen]
        congr 1
        omega
    · rw [if_neg hh, List.getElem?_eq_none (by rw [hg]; omega)]

/-- The sample tokenizer keeps its contract. -/
theorem sampleCollab_tokenizer : TokenizerContract sampleCollab := by
  intro w inputs encs h
  simp only [sampleCollab, Res.ok.injEq] at h
  subst h
  refine ⟨List.length_map _ _, ⟨3, ?_⟩, ?_⟩
  · intro enc henc
    obtain ⟨input, -, rfl⟩ := List.mem_map.mp henc
    exact ⟨rfl, rfl, rfl⟩
  · intro i j _ _ hij
    rw [List.getElem?_map, List.getElem?_map, hij]

/-- The sample engine keeps its contract. -/
theorem sampleCollab_engine : EngineRowContract sampleCollab := by
  refine ⟨fun _ ids _ _ => sampleRow ids, ?_⟩
  intro w session ids mask types out N L flat hrun hshape n hn
  simp only [sampleCollab, sampleRun, hshape, Int.toNat_ofNat, Res.ok.injEq] at hrun
  subst hrun
  exact rowOf_flatMap_blocks hiddenSize _ (fun k => by simp [sampleRow]) N n hn

/-- C10: under the tokenizer's contract (one encoding per sentence, all of one length,
equal sentences of a batch get equal encodings) and the engine's contract (an output
row depends only on that row's content and the length `L`), when `ComputeBatch`
returns rows for a batch holding the same sentence at positions `i` and `j`, the rows
at `i` and at `j` are the same vector. -/
theorem C10_duplicates_agree (c : Collab) (m : Model) (w w' : World)
    (sentences : List String) (rows : List (List F32)) (i j : Nat) (s : String)
    (hT : TokenizerContract c) (hE : EngineRowContract c)
    (h : ComputeBatch c m w sentences = .returned ⟨some rows, none⟩ w')
    (hi : sentences[i]? = some s) (hj : sentences[j]? = some s) :
    ∃ v, rows[i]? = some v ∧ rows[j]? = some v := by
  have hiN : i < sentences.length := (List.getElem?_eq_some_iff.mp hi).1
  have hjN : j < sentences.length := (List.getElem?_eq_some_iff.mp hj).1
  have hne : sentences ≠ [] := by
    intro h0; rw [h0] at hiN; simp at hiN
  obtain ⟨encs, inp, flat, wr, h1, h2, h3, out, htok, hbuild, hrun, hlen, hres⟩ :=
    ComputeBatch_success_run c m w w' sentences _ hne h rfl
  simp only [Option.some.injEq] at hres
  obtain ⟨hcount, ⟨L, hL⟩, hsame⟩ := hT w _ encs htok
  have hins : (encodeInputs sentences).length = sentences.length := by
    rw [encodeInputs_eq_map, List.length_map]
  rw [hins] at hcount
  have hpos : 1 ≤ sentences.length := by omega
  obtain ⟨bufs, hb, -, -, -, hcells⟩ := buildInputs_ok sentences.length L encs hpos hcount hL
  rw [hb] at hbuild
  simp only [Option.some.injEq] at hbuild
  subst hbuild
  obtain ⟨rowFn, hrow⟩ := hE
  have henc : encs[i]? = encs[j]? := by
    apply hsame i j (by omega) (by omega)
    rw [encodeInputs_eq_map, List.getElem?_map, List.getElem?_map, hi, hj]
  obtain ⟨ei, hie⟩ : ∃ e, encs[i]? = some e :=
    ⟨_, List.getElem?_eq_getElem (show i < encs.length by omega)⟩
  have hje : encs[j]? = some ei := by rw [← henc, hie]
  have hLi := hL ei (List.getElem?_mem hie)
  have rowsEq : ∀ n, encs[n]? = some ei → n < sentences.length →
      rowOf hiddenSize n flat = rowFn L ei.Ids ei.AttentionMask ei.TypeIds := by
    intro n hn hnN
    rw [hrow wr m.session _ _ _ out sentences.length L flat hrun rfl n hnN]
    simp only
    rw [rowOf_eq_of_cells L n bufs.inputIdsData ei.Ids hLi.1
        (fun l hl => (hcells n l ei hn hl).1),
      rowOf_eq_of_cells L n bufs.attentionMaskData ei.AttentionMask hLi.2.1
        (fun l hl => (hcells n l ei hn hl).2.1),
      rowOf_eq_of_cells L n bufs.tokenTypeIdsData ei.TypeIds hLi.2.2
        (fun l hl => (hcells n l ei hn hl).2.2)]
  refine ⟨rowOf hiddenSize i flat, ?_, ?_⟩
  · rw [hres, List.getElem?_map, List.getElem?_range hiN]; rfl
  · rw [hres, List.getElem?_map, List.getElem?_range hjN]
    simp only [Option.map_some', Option.some.injEq]
    rw [rowsEq j hje hjN, rowsEq i hie hiN]

set_option maxRecDepth 100000 in
/-- C10 at the batch `a`, `bc`, `a` of the sample collaborators: positions 0 and 2. -/
theorem C10_duplicates_agree_witness :
    ∃ (rows : List (List F32)) (w' : World),
      TokenizerContract sampleCollab ∧ EngineRowContract sampleCollab ∧
      ComputeBatch sampleCollab sampleModel sampleWorld ["a", "bc", "a"]
        = .returned ⟨some rows, none⟩ w' ∧
      ["a", "bc", "a"][0]? = some "a" ∧ ["a", "bc", "a"][2]? = some "a" ∧
      ∃ v, rows[0]? = some v ∧ rows[2]? = some v :=
  ⟨_, _, sampleCollab_tokenizer, sampleCollab_engine, rfl, rfl, rfl,
    C10_duplicates_agree sampleCollab sampleModel sampleWorld _ ["a", "bc", "a"] _ 0 2 "a"
      sampleCollab_tokenizer sampleCollab_engine rfl rfl rfl⟩


/-! ## Tensor lifetimes -/

/-- The live tensors after two lists of calls, one after the other. -/
theorem liveAfter_append (xs ys : List Event) :
    ∀ live, liveAfter live (xs ++ ys) = liveAfter (liveAfter live xs) ys := by
  induction xs with
  | nil => intro live; rfl
  | cons e rest ih =>
    intro live
    cases e with
    | newTensor shape data result => cases result <;> simp [liveAfter, ih]
    | newEmptyTensor shape result => cases result <;> simp [liveAfter, ih]
    | _ => simp [liveAfter, ih]

/-- The calls one `ComputeBatch` adds, as far as tensors go: the tensors created are
the first few of four fresh handles, all four once the engine is reached; they are
destroyed in reverse order of creation; and the live tensors are left as they were. -/
theorem ComputeBatch_tensors (c : Collab) (m : Model) (w : World) (sentences : List String) :
    destroyedTensors (newEvents w (ComputeBatch c m w sentences).world)
        = (createdTensors (newEvents w (ComputeBatch c m w sentences).world)).reverse ∧
      createdTensors (newEvents w (ComputeBatch c m w sentences).world) <+:
        [w.nextHandle, w.nextHandle + 1, w.nextHandle + 2, w.nextHandle + 3] ∧
      (runResults (newEvents w (ComputeBatch c m w sentences).world) ≠ [] →
        createdTensors (newEvents w (ComputeBatch c m w sentences).world)
          = [w.nextHandle, w.nextHandle + 1, w.nextHandle + 2, w.nextHandle + 3]) ∧
      ∀ live, liveAfter live (newEvents w (ComputeBatch c m w sentences).world) = live := by
  by_cases hne : sentences = []
  · subst hne
    simp [ComputeBatch, Outcome.world, newEvents, createdTensors, destroyedTensors,
      runResults, liveAfter]
  · have hp := ComputeBatch_path c m w sentences hne
    generalize ComputeBatch c m w sentences = o at hp
    cases hp with
    | tokenizeFailed err htok =>
      simp [Outcome.world, newEvents_after, createdTensors, destroyedTensors, runResults,
        liveAfter]
    | buildPanicked encodings htok hbuild =>
      simp [Outcome.world, newEvents_after, createdTensors, destroyedTensors, runResults,
        liveAfter]
    | idsFailed encodings inp err htok hbuild hids =>
      simp [Outcome.world, newEvents_after, createdTensors, destroyedTensors, runResults,
        liveAfter]
    | maskFailed encodings inp err htok hbuild hmask =>
      simp only [Outcome.world, newEvents_after, createdTensors, destroyedTensors,
        runResults, liveAfter, List.reverse_cons, List.reverse_nil, List.nil_append,
        List.erase_cons_head, ne_eq, not_true_eq_false, false_implies, implies_true,
        and_true, true_and]
      exact ⟨[_, _, _], rfl⟩
    | typesFailed encodings inp err htok hbuild htypes =>
      simp only [Outcome.world, newEvents_after, createdTensors, destroyedTensors,
        runResults, liveAfter, List.reverse_cons, List.reverse_nil, List.nil_append,
        List.cons_append, List.erase_cons_head, ne_eq, not_true_eq_false, false_implies,
        implies_true, and_true, true_and]
      exact ⟨[_, _], rfl⟩
    | outputFailed encodings inp err htok hbuild hout =>
      simp only [Outcome.world, newEvents_after, createdTensors, destroyedTensors,
        runResults, liveAfter, List.reverse_cons, List.reverse_nil, List.nil_append,
        List.cons_append, List.erase_cons_head, ne_eq, not_true_eq_false, false_implies,
        implies_true, and_true, true_and]
      exact ⟨[_], rfl⟩
    | ran encodings inp r htok hbuild hrun =>
      simp only [Outcome.world, newEvents_after, createdTensors, destroyedTensors,
        runResults, liveAfter, List.reverse_cons, List.reverse_nil, List.nil_append,
        List.cons_append, List.erase_cons_head, implies_true, and_true, true_and]
      exact ⟨[], rfl⟩

theorem sessionDestroys_append (xs ys : List Event) :
    sessionDestroys (xs ++ ys) = sessionDestroys xs ++ sessionDestroys ys := by
  induction xs with
  | nil => rfl
  | cons e rest ih => cases e <;> simp [sessionDestroys, ih]

theorem World.after_nil (w : World) : w.after [] 0 = w := by
  simp [World.after]

theorem World.after_after (w : World) (xs ys : List Event) (j k : Nat) :
    (w.after xs j).after ys k = w.after (xs ++ ys) (j + k) := by
  simp [World.after, Nat.add_assoc]

/-- The world after `ComputeBatch` is the world before it with calls added, none of
which destroys a session. -/
theorem ComputeBatch_world (c : Collab) (m : Model) (w : World) (sentences : List String) :
    ∃ evs k, (ComputeBatch c m w sentences).world = w.after evs k ∧
      sessionDestroys evs = [] := by
  by_cases hne : sentences = []
  · subst hne
    exact ⟨[], 0, by simp [ComputeBatch, Outcome.world, World.after_nil], rfl⟩
  · have hp := ComputeBatch_path c m w sentences hne
    generalize ComputeBatch c m w sentences = o at hp
    cases hp <;> exact ⟨_, _, rfl, rfl⟩

/-- C11: for every call of `ComputeBatch`, on each of its exits (return with rows,
failed tensor creation, failed run, size mismatch, panic): the tensors destroyed
during the call are exactly the tensors it created, in reverse order of creation; each
created tensor is destroyed exactly once; the tensors created are the first of four
fresh handles (ids, mask, type ids, output), all four whenever the engine was
reached; and the live tensors after the call are the live tensors before it. -/
theorem C11_tensors_released (c : Collab) (m : Model) (w : World) (sentences : List String) :
    destroyedTensors (newEvents w (ComputeBatch c m w sentences).world)
        = (createdTensors (newEvents w (ComputeBatch c m w sentences).world)).reverse ∧
      (∀ h ∈ createdTensors (newEvents w (ComputeBatch c m w sentences).world),
        (destroyedTensors (newEvents w (ComputeBatch c m w sentences).world)).count h = 1) ∧
      createdTensors (newEvents w (ComputeBatch c m w sentences).world) <+:
        [w.nextHandle, w.nextHandle + 1, w.nextHandle + 2, w.nextHandle + 3] ∧
      (runResults (newEvents w (ComputeBatch c m w sentences).world) ≠ [] →
        createdTensors (newEvents w (ComputeBatch c m w sentences).world)
          = [w.nextHandle, w.nextHandle + 1, w.nextHandle + 2, w.nextHandle + 3]) ∧
      liveTensors (ComputeBatch c m w sentences).world = liveTensors w := by
  obtain ⟨hrev, hpre, hall, hlive⟩ := ComputeBatch_tensors c m w sentences
  refine ⟨hrev, ?_, hpre, hall, ?_⟩
  · intro h hmem
    have hnd : (createdTensors (newEvents w (ComputeBatch c m w sentences).world)).Nodup :=
      List.Nodup.sublist hpre.sublist (by simp)
    rw [hrev, List.count_reverse]
    exact List.count_eq_one_of_mem hnd hmem
  · obtain ⟨evs, k, hw, -⟩ := ComputeBatch_world c m w sentences
    have hl := hlive (liveAfter [] w.trace)
    rw [hw, newEvents_after] at hl
    rw [hw]
    simp only [liveTensors, World.after, liveAfter_append]
    exact hl

set_option maxRecDepth 100000 in
/-- C11 at the sample collaborators: a call that returns rows, a call whose engine run
fails and a call whose output has the wrong size each create the tensors 0, 1, 2, 3
and destroy 3, 2, 1, 0. -/
theorem C11_tensors_released_sample :
    createdTensors (newEvents sampleWorld
      (ComputeBatch sampleCollab sampleModel sampleWorld ["a", "bc"]).world) = [0, 1, 2, 3] ∧
    destroyedTensors (newEvents sampleWorld
      (ComputeBatch sampleCollab sampleModel sampleWorld ["a", "bc"]).world) = [3, 2, 1, 0] ∧
    destroyedTensors (newEvents sampleWorld
      (ComputeBatch failingRunCollab sampleModel sampleWorld ["a"]).world) = [3, 2, 1, 0] ∧
    destroyedTensors (newEvents sampleWorld
      (ComputeBatch shortOutputCollab sampleModel sampleWorld ["a"]).world) = [3, 2, 1, 0] := by
  refine ⟨by decide, by decide, by decide, by decide⟩

/-! ## Closing a model -/

/-- One `Close` leaves the model as it was and adds one session destruction for a
model holding a session, none for a model whose session pointer is `nil`. -/
theorem Close_destroys (c : Collab) (m : Model) (w : World) :
    (Close c m w).model = m ∧
      ∃ evs, (Close c m w).world = w.after evs 0 ∧
        sessionDestroys evs = closeDestroys m 1 := by
  refine ⟨rfl, ?_⟩
  cases hs : m.session with
  | none =>
    exact ⟨[.destroyEnvironment (c.DestroyEnvironment w)], by
      simp [Close, hs, World.log, World.after], by simp [closeDestroys, hs, sessionDestroys]⟩
  | some h =>
    exact ⟨[.sessionDestroy h, .destroyEnvironment
      (c.DestroyEnvironment (w.log (.sessionDestroy h)))], by
      simp [Close, hs, World.log, World.after], by simp [closeDestroys, hs, sessionDestroys]⟩

theorem closeDestroys_succ (m : Model) (n : Nat) :
    closeDestroys m (n + 1) = closeDestroys m 1 ++ closeDestroys m n := by
  cases hs : m.session <;> simp [closeDestroys, hs, List.replicate_succ]

/-- One operation leaves the model as it was; only `Close` destroys the session. -/
theorem runOp_destroys (c : Collab) (m : Model) (w : World) (op : Op) :
    (runOp c m w op).1 = m ∧
      ∃ evs k, (runOp c m w op).2 = w.after evs k ∧
        sessionDestroys evs = closeDestroys m (closeCount [op]) := by
  cases op with
  | close =>
    obtain ⟨hm, evs, hw, hd⟩ := Close_destroys c m w
    exact ⟨hm, evs, 0, hw, by simpa [closeCount] using hd⟩
  | compute sentence =>
    obtain ⟨evs, k, hw, hd⟩ := ComputeBatch_world c m w [sentence]
    refine ⟨rfl, evs, k, ?_, ?_⟩
    · simp only [runOp]
      rw [(Compute_of_path c m w sentence).2.1]
      exact hw
    · rw [hd]
      cases hs : m.session <;> simp [closeDestroys, closeCount, hs]
  | computeBatch sentences =>
    obtain ⟨evs, k, hw, hd⟩ := ComputeBatch_world c m w sentences
    refine ⟨rfl, evs, k, hw, ?_⟩
    rw [hd]
    cases hs : m.session <;> simp [closeDestroys, closeCount, hs]

/-- A sequence of operations leaves the model as it was and destroys the session
once per `Close` in it. -/
theorem runOps_destroys (c : Collab) (m : Model) (ops : List Op) :
    ∀ w, (runOps c m w ops).1 = m ∧
      ∃ evs k, (runOps c m w ops).2 = w.after evs k ∧
        sessionDestroys evs = closeDestroys m (closeCount ops) := by
  induction ops with
  | nil =>
    intro w
    refine ⟨rfl, [], 0, by simp [runOps, World.after_nil], ?_⟩
    cases hs : m.session <;> simp [closeDestroys, closeCount, hs, sessionDestroys]
  | cons op rest ih =>
    intro w
    obtain ⟨hm, evs, k, hw, hd⟩ := runOp_destroys c m w op
    simp only [runOps]
    rw [hm, hw]
    obtain ⟨hm2, evs2, k2, hw2, hd2⟩ := ih (w.after evs k)
    refine ⟨hm2, evs ++ evs2, k + k2, ?_, ?_⟩
    · rw [hw2, World.after_after]
    · rw [sessionDestroys_append, hd, hd2]
      cases op with
      | close =>
        have h1 : closeCount [Op.close] = 1 := rfl
        have h2 : closeCount (Op.close :: rest) = closeCount rest + 1 := rfl
        rw [h1, h2, closeDestroys_succ m (closeCount rest)]
      | compute sentence =>
        cases hs : m.session <;> simp [closeDestroys, closeCount, hs]
      | computeBatch sentences =>
        cases hs : m.session <;> simp [closeDestroys, closeCount, hs]

/-- C12, as the code has it: every operation leaves the model as it was, so the model
has no closed state; over any sequence of operations on one model holding a session,
`session.Destroy()` is called once for each `Close` in the sequence and never by
`Compute` or `ComputeBatch`.  The session is thus destroyed at most once exactly
when `Close` is called at most once. -/
theorem C12_destroy_per_close (c : Collab) (m : Model) (w : World) (ops : List Op) :
    (runOps c m w ops).1 = m ∧
      sessionDestroys (newEvents w (runOps c m w ops).2)
        = closeDestroys m (closeCount ops) ∧
      ((sessionDestroys (newEvents w (runOps c m w ops).2)).length ≤ 1 ↔
        m.session = none ∨ closeCount ops ≤ 1) := by
  obtain ⟨hm, evs, k, hw, hd⟩ := runOps_destroys c m ops w
  have hev : sessionDestroys (newEvents w (runOps c m w ops).2)
      = closeDestroys m (closeCount ops) := by
    rw [hw, newEvents_after, hd]
  refine ⟨hm, hev, ?_⟩
  rw [hev]
  cases hs : m.session <;> simp [closeDestroys, hs]

/-- C12 as stated fails: on the model `NewModel` returns with the sample
collaborators, holding session 0, two `Close` calls in a row call
`session.Destroy()` on session 0 twice, and the model after the first `Close` is the
model before it. -/
theorem C12_counterexample :
    ∃ m w1, NewModel sampleCollab sampleWorld [] = ⟨some m, none, w1⟩ ∧
      m.session = some 0 ∧
      (runOps sampleCollab m w1 [.close]).1 = m ∧
      sessionDestroys (newEvents w1 (runOps sampleCollab m w1 [.close, .close]).2) = [0, 0] :=
  ⟨_, _, rfl, rfl, rfl, by decide⟩

end AllMiniLM
